import Mathlib

/-!
Verification of the TasoFind paraphrase engine (`SynonymFinder/word_lookup.py`).

This file gives a shallow embedding of the paraphrase generation and scoring
engine and proves/refutes the frozen claims about it.

Modelling conventions:
* Python strings are `String`, Python floats are `ℚ` (all arithmetic in the
  source is exact decimal/ratio arithmetic on small values).
* Python `set` objects are `Finset` when only cardinality/membership matter;
  where the source converts a set to a list (`list(synonyms)`), the
  enumeration order is unspecified in Python, and is modelled by an explicit
  enumeration parameter.
* Randomness (`random.sample`, `random.choice`, `random.uniform`,
  `random.randint`, `random.random`) is modelled by oracle functions supplied
  as parameters; theorems quantify over all oracles, hence over all seeds.
* The external NLTK collaborators (`word_tokenize`, `pos_tag`, WordNet) are
  modelled as adapter parameters, fallible where the orchestrator guards them
  with `try`/`except` (`Except String`).
* The regex-based structural substitution phase of the "turnitin proof"
  generator (strategies 3–5 of `_create_turnitin_proof_paraphrase`, together
  with its punctuation normalisation) and the three-regex punctuation fix
  used by the generation loop are modelled as string-transformer oracle
  fields: the properties under verification are independent of the precise
  text produced there, and quantifying over arbitrary transformers soundly
  over-approximates the regex engine.
-/

/-- Python `str.isalnum()`: non-empty and every character alphanumeric. -/
def pyIsAlnum (s : String) : Bool :=
  ¬ s.isEmpty ∧ s.toList.all Char.isAlphanum

/-- The apostrophe character, written via its code point. -/
def aposChar : Char := Char.ofNat 39

/-- Python `word.replace(apostrophe, empty)`: drop all apostrophes. -/
def stripApos (s : String) : String :=
  ⟨s.toList.filter (fun c => c ≠ aposChar)⟩

/-- Python `str.lower()` (same character mapping as `String.toLower`,
defined over the character list so that it is kernel-reducible). -/
def pyLower (s : String) : String :=
  ⟨s.toList.map Char.toLower⟩

/-- Python `str.upper()`. -/
def pyUpper (s : String) : String :=
  ⟨s.toList.map Char.toUpper⟩

/-- Python `str.startswith(t)`. -/
def pyStartsWith (s t : String) : Bool :=
  s.toList.take t.toList.length = t.toList

/-- Python `str.strip()`: drop leading and trailing whitespace. -/
def pyStrip (s : String) : String :=
  ⟨((s.toList.dropWhile Char.isWhitespace).reverse.dropWhile
      Char.isWhitespace).reverse⟩

/-- Python `sep.join` with a single-space separator. -/
def joinSpace (l : List String) : String :=
  ⟨((l.map String.toList).intersperse [' ']).flatten⟩

/-- Helper for `pySplit`: scans the character list, collecting the current
word in reverse. -/
def pySplitAux : List Char → List Char → List String
  | [], acc => if acc.isEmpty then [] else [⟨acc.reverse⟩]
  | c :: rest, acc =>
    if c.isWhitespace then
      if acc.isEmpty then pySplitAux rest []
      else (⟨acc.reverse⟩ : String) :: pySplitAux rest []
    else pySplitAux rest (c :: acc)

/-- Python `str.split()` with no argument: maximal whitespace-free runs,
empty pieces dropped. -/
def pySplit (s : String) : List String :=
  pySplitAux s.toList []

/-- Python `str.capitalize()`: first character uppercased, the rest
lowercased. -/
def pyCapitalize (s : String) : String :=
  match s.toList with
  | [] => ""
  | c :: cs => ⟨c.toUpper :: cs.map Char.toLower⟩

/-- Python `int(q)` for a float: truncation toward zero. -/
def pyTrunc (q : ℚ) : ℤ :=
  if 0 ≤ q then ⌊q⌋ else -⌊-q⌋

/-- Python `random.choice(lst)` with the choice index supplied by an
oracle; total via modulo, empty lists give the default. -/
def pyChoice (k : Nat) (l : List String) : String :=
  l.getD (k % l.length) ""

/-- `set(token.lower() for token in tokens if token.isalnum())`. -/
def alnumWordsOf (tokens : List String) : Finset String :=
  ((tokens.filter pyIsAlnum).map pyLower).toFinset

/-- The lowercased alphanumeric tokens, in order (used for n-grams). -/
def alnumListOf (tokens : List String) : List String :=
  (tokens.filter pyIsAlnum).map pyLower

/-- `get_ngrams`: `[tuple(l[i:i+n]) for i in range(len(l)-n+1)]`. -/
def getNgrams (l : List String) (n : Nat) : List (List String) :=
  (List.range (l.length + 1 - n)).map (fun i => (l.drop i).take n)

/-! ## Formality scoring and style filtering (`_get_synonym_formality_score`,
`_filter_synonyms_by_style`) -/

/-- The fixed informal-word set from `_get_synonym_formality_score`. -/
def informal_words : List String :=
  ["guy", "kid", "cool", "awesome", "stuff", "thing", "get", "got", "gonna",
   "wanna", "yeah", "yep", "nah", "nope", "huge", "tiny", "big", "small"]

/-- The fixed formal-word set from `_get_synonym_formality_score`. -/
def formal_words : List String :=
  ["individual", "personnel", "utilize", "facilitate", "implement",
   "substantial", "considerable", "significant", "demonstrate", "exhibit"]

/-- `_get_synonym_formality_score`: 0.2 for informal words, 0.9 for formal
words, else `min 1 (0.5 + len/20)`. The first argument is unused in the
source as well. -/
def get_synonym_formality_score (_word synonym : String) : ℚ :=
  let length_bonus : ℚ := (synonym.length : ℚ) / 20
  if pyLower synonym ∈ informal_words then 2/10
  else if pyLower synonym ∈ formal_words then 9/10
  else min 1 (5/10 + length_bonus)

/-- Lexicographic `≤` on pairs of rationals (Python tuple comparison). -/
def lexLeQ (p q : ℚ × ℚ) : Bool :=
  decide (p.1 < q.1 ∨ (p.1 = q.1 ∧ p.2 ≤ q.2))

/-- The style-specific stable sorts of `_filter_synonyms_by_style`
(Python `list.sort` is a stable sort; descending sorts use `reverse=True`,
tuple keys compare lexicographically). An unrecognised style leaves the
scored order unchanged. -/
def styleSort (style : String) (scored : List (String × ℚ)) : List (String × ℚ) :=
  if style = "formal" then scored.mergeSort (fun a b => decide (b.2 ≤ a.2))
  else if style = "casual" then scored.mergeSort (fun a b => decide (a.2 ≤ b.2))
  else if style = "academic" then
    scored.mergeSort (fun a b => lexLeQ (b.2, (b.1.length : ℚ)) (a.2, (a.1.length : ℚ)))
  else if style = "simple" then
    scored.mergeSort (fun a b => lexLeQ ((a.1.length : ℚ), a.2) ((b.1.length : ℚ), b.2))
  else scored

/-- `_filter_synonyms_by_style`: "balanced" returns the input unchanged;
otherwise each synonym is paired with its formality score, the pairs are
sorted by the style rule, and the synonyms are read back off. -/
def filter_synonyms_by_style (synonyms : List String) (style : String) : List String :=
  if style = "balanced" then synonyms
  else (styleSort style
    (synonyms.map (fun syn => (syn, get_synonym_formality_score "" syn)))).map
      (fun x => x.1)

/-! ## Structural rearrangement (`_rearrange_sentence_structure`) -/

/-- Python simultaneous swap `l[i], l[j] = l[j], l[i]`. -/
def listSwap (l : List String) (i j : Nat) : List String :=
  (l.set i (l.getD j "")).set j (l.getD i "")

/-- The (index, token) pairs whose POS tag starts with the given tag
letters: the `adjectives` / `nouns` / `verbs` / `adverbs` buckets built by
`for i, (token, (word, pos)) in enumerate(zip(tokens, tagged))`. -/
def posBucket (indexed : List (Nat × String × String × String))
    (tag : String) : List (Nat × String) :=
  indexed.filterMap
    (fun p => if pyStartsWith (pyUpper p.2.2.2) tag then some (p.1, p.2.1) else none)

/-- Adjective stage of `_rearrange_sentence_structure`: swap the first two
adjectives when they are non-adjacent, ≥ 2 exist and there are > 5 tokens. -/
def rearrange_swap_stage (tokens : List String)
    (adjectives : List (Nat × String)) : List String :=
  if adjectives.length ≥ 2 ∧ tokens.length > 5 then
    match (adjectives.take 2).map (fun x => x.1) with
    | [i0, i1] =>
      if max i0 i1 - min i0 i1 > 1 then listSwap tokens i0 i1 else tokens
    | _ => tokens
  else tokens

/-- Adverb stage of `_rearrange_sentence_structure`: move the first interior
adverb to the end when at least one adverb and one noun exist. -/
def rearrange_adverb_stage (new_tokens : List String)
    (adverbs nouns : List (Nat × String)) : List String :=
  if adverbs.length ≥ 1 ∧ nouns.length ≥ 1 then
    if new_tokens.length > 3 then
      match adverbs with
      | (adv_idx, _) :: _ =>
        if 0 < adv_idx ∧ adv_idx < new_tokens.length - 1 then
          new_tokens.eraseIdx adv_idx ++ [new_tokens.getD adv_idx ""]
        else new_tokens
      | [] => new_tokens
    else new_tokens
  else new_tokens

/-- `_rearrange_sentence_structure`: with fewer than 4 tokens, the input is
returned unchanged; otherwise the adjective-swap stage and then the
adverb-move stage are run (the source also builds a `verbs` bucket that it
never uses). -/
def rearrange_sentence_structure (tokens : List String)
    (tagged : List (String × String)) : List String :=
  if tokens.length < 4 then tokens
  else
    let indexed := (tokens.zip tagged).enum
    rearrange_adverb_stage (rearrange_swap_stage tokens (posBucket indexed "JJ"))
      (posBucket indexed "RB") (posBucket indexed "NN")

/-! ### Permutation lemmas for the rearranger -/

theorem listSwap_perm (l : List String) (i j : Nat) (hi : i < l.length)
    (hj : j < l.length) : (listSwap l i j).Perm l := by
  rw [List.perm_iff_count]
  intro a
  unfold listSwap
  rw [List.getD_eq_getElem l "" hj, List.getD_eq_getElem l "" hi]
  have hj2 : j < (l.set i l[j]).length := by simpa using hj
  rw [List.count_set _ _ _ _ hj2, List.count_set _ _ _ _ hi]
  have hset : (l.set i l[j])[j] = l[j] := by
    rw [List.getElem_set]
    split <;> simp_all
  rw [hset]
  have hx : (if (l[i] == a) = true then 1 else 0) ≤ List.count a l := by
    split
    · rename_i h
      have : l[i] = a := by simpa using h
      have : a ∈ l := this ▸ l.getElem_mem hi
      have := List.count_pos_iff.mpr this
      omega
    · omega
  omega

theorem eraseIdx_append_getD_perm (l : List String) (i : Nat) (hi : i < l.length) :
    (l.eraseIdx i ++ [l.getD i ""]).Perm l := by
  rw [List.getD_eq_getElem l "" hi, List.eraseIdx_eq_take_drop_succ]
  have h1 : (l.take i ++ l.drop (i + 1) ++ [l[i]]).Perm
      (l[i] :: (l.take i ++ l.drop (i + 1))) := List.perm_append_singleton _ _
  have h2 : (l[i] :: (l.take i ++ l.drop (i + 1))).Perm
      (l.take i ++ l[i] :: l.drop (i + 1)) := List.perm_middle.symm
  have h3 : (l.take i ++ l[i] :: l.drop (i + 1)).Perm l := by
    rw [List.getElem_cons_drop, List.take_append_drop]
  exact (h1.trans h2).trans h3

theorem mem_enumFrom_fst_lt {α} (l : List α) (n : Nat) (p : Nat × α)
    (h : p ∈ l.enumFrom n) : p.1 < n + l.length := by
  induction l generalizing n with
  | nil => simp at h
  | cons x xs ih =>
    simp only [List.enumFrom, List.mem_cons] at h
    rcases h with h | h
    · subst h; simp
    · have := ih (n + 1) h
      simp only [List.length_cons]
      omega

theorem mem_enum_fst_lt {α} (l : List α) (p : Nat × α) (h : p ∈ l.enum) :
    p.1 < l.length := by
  have := mem_enumFrom_fst_lt l 0 p h
  omega

/-- Indices extracted from the POS buckets are valid token indices. -/
theorem posBucket_index_lt (tokens : List String) (tagged : List (String × String))
    (tag : String) (p : Nat × String)
    (h : p ∈ posBucket ((tokens.zip tagged).enum) tag) : p.1 < tokens.length := by
  rcases List.mem_filterMap.mp h with ⟨q, hq, hfq⟩
  have h1 : p.1 = q.1 := by
    by_cases hc : pyStartsWith (pyUpper q.2.2.2) tag = true <;> simp [hc] at hfq
    rw [← hfq]
  have h2 : q.1 < (tokens.zip tagged).length := mem_enum_fst_lt _ _ hq
  rw [List.length_zip] at h2
  omega

theorem rearrange_swap_stage_perm (tokens : List String)
    (adjectives : List (Nat × String))
    (h : ∀ p ∈ adjectives, p.1 < tokens.length) :
    (rearrange_swap_stage tokens adjectives).Perm tokens := by
  rcases adjectives with _ | ⟨⟨a0, t0⟩, _ | ⟨⟨a1, t1⟩, rest⟩⟩
  · unfold rearrange_swap_stage; simp
  · unfold rearrange_swap_stage; simp
  · show (if _ ∧ _ then
      if max a0 a1 - min a0 a1 > 1 then listSwap tokens a0 a1 else tokens
      else tokens).Perm tokens
    split
    · split
      · exact listSwap_perm tokens a0 a1 (h (a0, t0) (by simp)) (h (a1, t1) (by simp))
      · exact List.Perm.refl tokens
    · exact List.Perm.refl tokens

theorem rearrange_adverb_stage_perm (l : List String)
    (adverbs nouns : List (Nat × String)) :
    (rearrange_adverb_stage l adverbs nouns).Perm l := by
  rcases adverbs with _ | ⟨⟨adv_idx, t⟩, rest⟩
  · unfold rearrange_adverb_stage; simp
  · show (if _ ∧ _ then
      if l.length > 3 then
        if 0 < adv_idx ∧ adv_idx < l.length - 1 then
          l.eraseIdx adv_idx ++ [l.getD adv_idx ""]
        else l
      else l
      else l).Perm l
    split
    · split
      · split
        · rename_i h3 hrange
          exact eraseIdx_append_getD_perm l adv_idx (by omega)
        · exact List.Perm.refl l
      · exact List.Perm.refl l
    · exact List.Perm.refl l

/-- C10: `_rearrange_sentence_structure` returns a permutation of its input
token list, and returns the input unchanged when it has fewer than 4
tokens. -/
theorem rearrange_sentence_structure_perm (tokens : List String)
    (tagged : List (String × String)) :
    (rearrange_sentence_structure tokens tagged).Perm tokens ∧
      (tokens.length < 4 → rearrange_sentence_structure tokens tagged = tokens) := by
  constructor
  · unfold rearrange_sentence_structure
    split
    · exact List.Perm.refl tokens
    · have hswap : (rearrange_swap_stage tokens
          (posBucket ((tokens.zip tagged).enum) "JJ")).Perm tokens :=
        rearrange_swap_stage_perm tokens _
          (fun p hp => posBucket_index_lt tokens tagged "JJ" p hp)
      exact (rearrange_adverb_stage_perm _ _ _).trans hswap
  · intro h
    unfold rearrange_sentence_structure
    simp [h]

/-! ## C9: style ordering of `_filter_synonyms_by_style` -/

theorem lexLeQ_trans (a b c : ℚ × ℚ) (hab : lexLeQ a b = true)
    (hbc : lexLeQ b c = true) : lexLeQ a c = true := by
  simp only [lexLeQ, decide_eq_true_eq] at *
  rcases hab with h1 | ⟨h1, h2⟩ <;> rcases hbc with h3 | ⟨h3, h4⟩
  · exact Or.inl (h1.trans h3)
  · exact Or.inl (h3 ▸ h1)
  · exact Or.inl (h1 ▸ h3)
  · exact Or.inr ⟨h1.trans h3, h2.trans h4⟩

theorem lexLeQ_total (a b : ℚ × ℚ) : (lexLeQ a b || lexLeQ b a) = true := by
  simp only [lexLeQ, Bool.or_eq_true, decide_eq_true_eq]
  rcases lt_trichotomy a.1 b.1 with h | h | h
  · exact Or.inl (Or.inl h)
  · rcases le_total a.2 b.2 with h2 | h2
    · exact Or.inl (Or.inr ⟨h, h2⟩)
    · exact Or.inr (Or.inr ⟨h.symm, h2⟩)
  · exact Or.inr (Or.inl h)

theorem scored_snd_eq (synonyms : List String) (le : (String × ℚ) → (String × ℚ) → Bool)
    (x : String × ℚ)
    (hx : x ∈ (synonyms.map
      (fun syn => (syn, get_synonym_formality_score "" syn))).mergeSort le) :
    x.2 = get_synonym_formality_score "" x.1 := by
  rcases List.mem_map.mp (List.mem_mergeSort.mp hx) with ⟨s, _, rfl⟩
  rfl

theorem map_fst_scored (synonyms : List String) :
    List.map ((fun x : String × ℚ => x.1) ∘ fun syn =>
      (syn, get_synonym_formality_score "" syn)) synonyms = synonyms := by
  induction synonyms with
  | nil => rfl
  | cons x xs ih => simp only [List.map_cons, Function.comp_apply, ih]

/-- C9: `_filter_synonyms_by_style` returns a reordering (permutation) of
its input; "formal" output has non-increasing formality scores, "casual"
non-decreasing, "academic" non-increasing (score, length) lexicographic
keys, "simple" non-decreasing (length, score) lexicographic keys, and
"balanced" returns the input unchanged. -/
theorem filter_synonyms_by_style_spec (synonyms : List String) (style : String) :
    (filter_synonyms_by_style synonyms style).Perm synonyms ∧
    (style = "balanced" → filter_synonyms_by_style synonyms style = synonyms) ∧
    (style = "formal" → (filter_synonyms_by_style synonyms style).Pairwise
      (fun a b => get_synonym_formality_score "" b ≤ get_synonym_formality_score "" a)) ∧
    (style = "casual" → (filter_synonyms_by_style synonyms style).Pairwise
      (fun a b => get_synonym_formality_score "" a ≤ get_synonym_formality_score "" b)) ∧
    (style = "academic" → (filter_synonyms_by_style synonyms style).Pairwise
      (fun a b => lexLeQ (get_synonym_formality_score "" b, (b.length : ℚ))
        (get_synonym_formality_score "" a, (a.length : ℚ)) = true)) ∧
    (style = "simple" → (filter_synonyms_by_style synonyms style).Pairwise
      (fun a b => lexLeQ ((a.length : ℚ), get_synonym_formality_score "" a)
        ((b.length : ℚ), get_synonym_formality_score "" b) = true)) := by
  refine ⟨?_, ?_, ?_, ?_, ?_, ?_⟩
  · unfold filter_synonyms_by_style
    split
    · exact List.Perm.refl _
    · have h1 : (styleSort style
          (synonyms.map (fun syn => (syn, get_synonym_formality_score "" syn)))).Perm
            (synonyms.map (fun syn => (syn, get_synonym_formality_score "" syn))) := by
        unfold styleSort
        split_ifs <;> first
          | exact List.mergeSort_perm _ _
          | exact List.Perm.refl _
      have h2 := h1.map (fun x : String × ℚ => x.1)
      simp only [List.map_map] at h2
      rw [map_fst_scored] at h2
      exact h2
  · intro h
    unfold filter_synonyms_by_style
    rw [if_pos h]
  · intro h
    subst h
    unfold filter_synonyms_by_style styleSort
    rw [if_neg (by decide), if_pos rfl, List.pairwise_map]
    have hsorted := @List.sorted_mergeSort (String × ℚ)
      (fun a b : String × ℚ => decide (b.2 ≤ a.2))
      (fun a b c hab hbc => by
        simp only [decide_eq_true_eq] at *; exact hbc.trans hab)
      (fun a b => by
        simp only [Bool.or_eq_true, decide_eq_true_eq]; exact le_total b.2 a.2)
      (synonyms.map (fun syn => (syn, get_synonym_formality_score "" syn)))
    refine hsorted.imp_of_mem ?_
    intro a b ha hb hr
    simp only [decide_eq_true_eq] at hr
    rw [scored_snd_eq synonyms _ a ha, scored_snd_eq synonyms _ b hb] at hr
    exact hr
  · intro h
    subst h
    unfold filter_synonyms_by_style styleSort
    rw [if_neg (by decide), if_neg (by decide), if_pos rfl, List.pairwise_map]
    have hsorted := @List.sorted_mergeSort (String × ℚ)
      (fun a b : String × ℚ => decide (a.2 ≤ b.2))
      (fun a b c hab hbc => by
        simp only [decide_eq_true_eq] at *; exact hab.trans hbc)
      (fun a b => by
        simp only [Bool.or_eq_true, decide_eq_true_eq]; exact le_total a.2 b.2)
      (synonyms.map (fun syn => (syn, get_synonym_formality_score "" syn)))
    refine hsorted.imp_of_mem ?_
    intro a b ha hb hr
    simp only [decide_eq_true_eq] at hr
    rw [scored_snd_eq synonyms _ a ha, scored_snd_eq synonyms _ b hb] at hr
    exact hr
  · intro h
    subst h
    unfold filter_synonyms_by_style styleSort
    rw [if_neg (by decide), if_neg (by decide), if_neg (by decide), if_pos rfl,
      List.pairwise_map]
    have hsorted := @List.sorted_mergeSort (String × ℚ)
      (fun a b : String × ℚ =>
        lexLeQ (b.2, (b.1.length : ℚ)) (a.2, (a.1.length : ℚ)))
      (fun a b c hab hbc => lexLeQ_trans _ _ _ hbc hab)
      (fun a b => lexLeQ_total _ _)
      (synonyms.map (fun syn => (syn, get_synonym_formality_score "" syn)))
    refine hsorted.imp_of_mem ?_
    intro a b ha hb hr
    rw [scored_snd_eq synonyms _ a ha, scored_snd_eq synonyms _ b hb] at hr
    exact hr
  · intro h
    subst h
    unfold filter_synonyms_by_style styleSort
    rw [if_neg (by decide), if_neg (by decide), if_neg (by decide), if_neg (by decide),
      if_pos rfl, List.pairwise_map]
    have hsorted := @List.sorted_mergeSort (String × ℚ)
      (fun a b : String × ℚ =>
        lexLeQ ((a.1.length : ℚ), a.2) ((b.1.length : ℚ), b.2))
      (fun a b c hab hbc => lexLeQ_trans _ _ _ hab hbc)
      (fun a b => lexLeQ_total _ _)
      (synonyms.map (fun syn => (syn, get_synonym_formality_score "" syn)))
    refine hsorted.imp_of_mem ?_
    intro a b ha hb hr
    rw [scored_snd_eq synonyms _ a ha, scored_snd_eq synonyms _ b hb] at hr
    exact hr

/-- C9 witness: the theorem applied at a concrete synonym list and the
"formal" style. -/
theorem filter_synonyms_by_style_spec_witness :
    (filter_synonyms_by_style ["utilize", "guy", "cat"] "formal").Perm
      ["utilize", "guy", "cat"] ∧
    (filter_synonyms_by_style ["utilize", "guy", "cat"] "formal").Pairwise
      (fun a b => get_synonym_formality_score "" b ≤ get_synonym_formality_score "" a) :=
  ⟨(filter_synonyms_by_style_spec ["utilize", "guy", "cat"] "formal").1,
   (filter_synonyms_by_style_spec ["utilize", "guy", "cat"] "formal").2.2.1 rfl⟩

/-! ## WordNet adapter and replacement-map dictionaries -/

/-- The Lexical Source Adapter (NLTK WordNet): sense groups are identified
by numbers; `synsetsOf w none` is the unrestricted `wn.synsets(w)` and
`synsetsOf w (some p)` the POS-restricted query. -/
structure WordNet where
  synsetsOf : String → Option String → List Nat
  hypernymsOf : Nat → List Nat
  hyponymsOf : Nat → List Nat
  lemmasOf : Nat → List String

/-- Python dict lookup `d[k]` / `d.get(k)` on an insertion-ordered
association list. -/
def dictFind? (d : List (String × List String)) (k : String) :
    Option (List String) :=
  (d.find? (fun p => p.1 = k)).map (fun p => p.2)

/-- Python `k in d`. -/
def dictContains (d : List (String × List String)) (k : String) : Bool :=
  (dictFind? d k).isSome

/-- Python dict assignment `d[k] = v` (overwrite or append). -/
def dictInsert (d : List (String × List String)) (k : String)
    (v : List String) : List (String × List String) :=
  if d.any (fun p => p.1 = k) then d.map (fun p => if p.1 = k then (k, v) else p)
  else d ++ [(k, v)]

/-! ## Quality scorer (`_calculate_variation_score`) -/

/-- The stop-word set used by the semantic-similarity factor of the
scorer. -/
def score_stop_words : List String :=
  ["the", "a", "an", "and", "or", "but", "in", "on", "at", "to", "for",
   "of", "with", "by", "is", "are", "was", "were", "be", "been", "have",
   "has", "had", "do", "does", "did", "will", "would", "could", "should"]

/-- Factor 1: word-overlap score with optimal band 0.30–0.85. -/
def overlapScore (overlap : ℚ) : ℚ :=
  if overlap < 3/10 then overlap / (3/10)
  else if overlap > 85/100 then 1 - ((overlap - 85/100) / (15/100))
  else 1

/-- The raw lowercased-alphanumeric word-overlap ratio
`len(original_words ∩ variation_words) / len(original_words)`. -/
def overlapOf (original_tokens variation_tokens : List String) : ℚ :=
  ((alnumWordsOf original_tokens ∩ alnumWordsOf variation_tokens).card : ℚ) /
    (alnumWordsOf original_tokens).card

/-- The verified position-aligned replacements `(orig_lower, var_lower)`
collected by the scorer: positions where the variation token differs
case-insensitively, is alphanumeric, and is a listed synonym of the
original token. -/
def replacementDetails (original_tokens variation_tokens : List String)
    (word_replacements : List (String × List String)) : List (String × String) :=
  variation_tokens.enum.filterMap (fun p =>
    match original_tokens[p.1]? with
    | none => none
    | some orig_token =>
      if pyLower orig_token ≠ pyLower p.2 ∧ pyIsAlnum p.2 then
        match dictFind? word_replacements (pyLower orig_token) with
        | some synonyms =>
          if pyLower p.2 ∈ synonyms.map pyLower then
            some (pyLower orig_token, pyLower p.2)
          else none
        | none => none
      else none)

/-- Factor 3 rank bonus: 1.0 for the first 3 ranked synonyms, 0.8 within
the first 5, else 0.6 (the source's `except ValueError` 0.4 arm is
unreachable because membership is checked first). -/
def synonymRankBonus (synonyms : List String) (v : String) : ℚ :=
  if (synonyms.map pyLower).indexOf v < 3 then 1
  else if (synonyms.map pyLower).indexOf v < 5 then 8/10
  else 6/10

/-- One accumulation step of the `synonym_quality_score` total. -/
def synQualityStep (word_replacements : List (String × List String))
    (acc : ℚ) (d : String × String) : ℚ :=
  match dictFind? word_replacements d.1 with
  | some synonyms => acc + synonymRankBonus synonyms d.2
  | none => acc + 4/10

/-- Accumulated `synonym_quality_score` before averaging. -/
def synQualitySum (word_replacements : List (String × List String))
    (details : List (String × String)) : ℚ :=
  details.foldl (synQualityStep word_replacements) 0

/-- `len([w for w in original_tokens if w.isalnum() and w.lower() in
word_replacements])`. -/
def replaceableCount (original_tokens : List String)
    (word_replacements : List (String × List String)) : Nat :=
  (original_tokens.filter
    (fun w => pyIsAlnum w ∧ dictContains word_replacements (pyLower w))).length

/-- Factor 2: replacement-ratio score with optimal band 0.20–0.70. -/
def replacementRatioScore (replacements_count replaceable_count : Nat) : ℚ :=
  if replaceable_count > 0 then
    if ((replacements_count : ℚ) / replaceable_count) < 2/10 then
      ((replacements_count : ℚ) / replaceable_count) / (2/10)
    else if ((replacements_count : ℚ) / replaceable_count) > 7/10 then
      1 - ((((replacements_count : ℚ) / replaceable_count) - 7/10) / (3/10))
    else 1
  else if replacements_count > 0 then 1 else 0

/-- Factor 3 averaged: `synonym_quality_score / replacements_count`. -/
def synonymQualityScoreOf (word_replacements : List (String × List String))
    (details : List (String × String)) : ℚ :=
  if details.length > 0 then
    synQualitySum word_replacements details / details.length
  else 0

/-- The union of hypernym and hyponym sense groups over a set of sense
groups. -/
def relatedSynsets (W : WordNet) (ss : Finset Nat) : Finset Nat :=
  ss.biUnion (fun s => (W.hypernymsOf s ++ W.hyponymsOf s).toFinset)

/-- One iteration of the semantic check: accumulates
`(shared_synsets, total_checks)`. -/
def semanticStep (W : WordNet) (acc : ℚ × Nat) (d : String × String) : ℚ × Nat :=
  if (W.synsetsOf d.1 none).toFinset ≠ ∅ ∧ (W.synsetsOf d.2 none).toFinset ≠ ∅ then
    if ((W.synsetsOf d.1 none).toFinset ∩ (W.synsetsOf d.2 none).toFinset) ≠ ∅ then
      (acc.1 + 1, acc.2 + 1)
    else
      if (relatedSynsets W (W.synsetsOf d.1 none).toFinset ∩
            relatedSynsets W (W.synsetsOf d.2 none).toFinset) ≠ ∅ ∨
          (relatedSynsets W (W.synsetsOf d.1 none).toFinset ∩
            (W.synsetsOf d.2 none).toFinset) ≠ ∅ ∨
          (relatedSynsets W (W.synsetsOf d.2 none).toFinset ∩
            (W.synsetsOf d.1 none).toFinset) ≠ ∅ then
        (acc.1 + 1/2, acc.2 + 1)
      else (acc.1, acc.2 + 1)
  else acc

/-- Factor 4: semantic-preservation score; defaults to 1 when either
content-word set is empty or no replacement pair has sense groups on both
sides. -/
def semanticScore (W : WordNet) (original_words variation_words : Finset String)
    (details : List (String × String)) : ℚ :=
  if (original_words.filter (fun w => w ∉ score_stop_words)) ≠ ∅ ∧
      (variation_words.filter (fun w => w ∉ score_stop_words)) ≠ ∅ then
    if (details.foldl (semanticStep W) (0, 0)).2 > 0 then
      (details.foldl (semanticStep W) (0, 0)).1 /
        ((details.foldl (semanticStep W) (0, 0)).2 : ℚ)
    else 1
  else 1

/-- Factor 5: length-preservation score. -/
def lengthScoreOf (original variation : String) : ℚ :=
  if (if original.length > 0 then (variation.length : ℚ) / original.length else 1) < 7/10 ∨
      (if original.length > 0 then (variation.length : ℚ) / original.length else 1) > 13/10
  then 1/2 else 1

/-- Factor 6: word-count-similarity score, floored at 0. -/
def wordCountScoreOf (original_words variation_words : Finset String) : ℚ :=
  max 0 (1 - (((original_words.card : ℤ) - variation_words.card).natAbs : ℚ) /
    (max original_words.card 1) * (1/2))

/-- The fixed-weight combination of the six factors
(0.20/0.25/0.25/0.20/0.05/0.05). -/
def rawWeightedScore (overlap_score replacement_score synonym_quality_score
    semantic_score length_score word_count_score : ℚ) : ℚ :=
  overlap_score * (20/100) + replacement_score * (25/100) +
  synonym_quality_score * (25/100) + semantic_score * (20/100) +
  length_score * (5/100) + word_count_score * (5/100)

/-- Post-weighting adjustment: ×1.1 for 2–5 replacements, ×0.3 for zero,
then clamp to ≤ 1. -/
def applyBonus (replacements_count : Nat) (final_score : ℚ) : ℚ :=
  min 1 (if 2 ≤ replacements_count ∧ replacements_count ≤ 5 then
      final_score * (11/10)
    else if replacements_count = 0 then final_score * (3/10)
    else final_score)

/-- `_calculate_variation_score` (the source also builds an
`original_tagged_dict` from `tagged` that it never reads; the parameter is
kept for interface fidelity). -/
def calculate_variation_score (W : WordNet) (original variation : String)
    (original_tokens variation_tokens : List String)
    (word_replacements : List (String × List String))
    (_tagged : List (String × String)) : ℚ :=
  if variation = "" ∨ pyLower variation = pyLower original then 0
  else if alnumWordsOf original_tokens = ∅ then 0
  else
    applyBonus (replacementDetails original_tokens variation_tokens word_replacements).length
      (rawWeightedScore
        (overlapScore (overlapOf original_tokens variation_tokens))
        (replacementRatioScore
          (replacementDetails original_tokens variation_tokens word_replacements).length
          (replaceableCount original_tokens word_replacements))
        (synonymQualityScoreOf word_replacements
          (replacementDetails original_tokens variation_tokens word_replacements))
        (semanticScore W (alnumWordsOf original_tokens) (alnumWordsOf variation_tokens)
          (replacementDetails original_tokens variation_tokens word_replacements))
        (lengthScoreOf original variation)
        (wordCountScoreOf (alnumWordsOf original_tokens) (alnumWordsOf variation_tokens)))

/-! ## C3: boundedness of the quality scorer -/

theorem overlapOf_bounds (ot vt : List String) (h : alnumWordsOf ot ≠ ∅) :
    0 ≤ overlapOf ot vt ∧ overlapOf ot vt ≤ 1 := by
  unfold overlapOf
  have hcard : 0 < (alnumWordsOf ot).card :=
    Finset.card_pos.mpr (Finset.nonempty_iff_ne_empty.mpr h)
  constructor
  · positivity
  · rw [div_le_one (by exact_mod_cast hcard)]
    exact_mod_cast Finset.card_le_card Finset.inter_subset_left

theorem overlapScore_bounds (ov : ℚ) (h0 : 0 ≤ ov) (h1 : ov ≤ 1) :
    0 ≤ overlapScore ov ∧ overlapScore ov ≤ 1 := by
  unfold overlapScore
  split_ifs with ha hb
  · constructor
    · positivity
    · rw [div_le_one (by norm_num)]
      linarith
  · have hq1 : (ov - 85/100) / (15/100) ≤ 1 := by
      rw [div_le_one (by norm_num)]
      linarith
    have hq0 : 0 ≤ (ov - 85/100) / (15/100) := by
      apply div_nonneg _ (by norm_num)
      linarith
    constructor <;> linarith
  · norm_num

theorem replacementRatioScore_bounds (c r : Nat) (h : c ≤ r) :
    0 ≤ replacementRatioScore c r ∧ replacementRatioScore c r ≤ 1 := by
  unfold replacementRatioScore
  split_ifs with h1 h2 h3
  · constructor
    · positivity
    · rw [div_le_one (by norm_num)]
      exact le_of_lt h2
  · have hr1 : ((c : ℚ) / r) ≤ 1 := by
      rw [div_le_one (by exact_mod_cast h1)]
      exact_mod_cast h
    have hq1 : ((c : ℚ) / r - 7/10) / (3/10) ≤ 1 := by
      rw [div_le_one (by norm_num)]
      linarith
    have hq0 : 0 ≤ ((c : ℚ) / r - 7/10) / (3/10) := by
      apply div_nonneg _ (by norm_num)
      linarith
    constructor <;> linarith
  · norm_num
  · norm_num
  · norm_num

theorem synQualityStep_bounds (wr : List (String × List String)) (acc : ℚ)
    (d : String × String) :
    acc ≤ synQualityStep wr acc d ∧ synQualityStep wr acc d ≤ acc + 1 := by
  unfold synQualityStep
  cases hd : dictFind? wr d.1 with
  | none => constructor <;> norm_num
  | some synonyms =>
    simp only []
    unfold synonymRankBonus
    split_ifs <;> constructor <;> norm_num

theorem synQuality_fold_bounds (wr : List (String × List String)) :
    ∀ (details : List (String × String)) (acc : ℚ),
      acc ≤ details.foldl (synQualityStep wr) acc ∧
        details.foldl (synQualityStep wr) acc ≤ acc + details.length := by
  intro details
  induction details with
  | nil => intro acc; simp
  | cons d ds ih =>
    intro acc
    have hstep := synQualityStep_bounds wr acc d
    have hih := ih (synQualityStep wr acc d)
    simp only [List.foldl_cons, List.length_cons]
    constructor
    · exact hstep.1.trans hih.1
    · have := hih.2
      push_cast
      push_cast at this
      linarith [hstep.2]

theorem synonymQualityScoreOf_bounds (wr : List (String × List String))
    (details : List (String × String)) :
    0 ≤ synonymQualityScoreOf wr details ∧ synonymQualityScoreOf wr details ≤ 1 := by
  unfold synonymQualityScoreOf synQualitySum
  split_ifs with h
  · have hb := synQuality_fold_bounds wr details 0
    have hlen : (0 : ℚ) < details.length := by exact_mod_cast h
    constructor
    · apply div_nonneg _ (le_of_lt hlen)
      linarith [hb.1]
    · rw [div_le_one hlen]
      linarith [hb.2]
  · norm_num

theorem semanticStep_bounds (W : WordNet) (acc : ℚ × Nat) (d : String × String)
    (h0 : 0 ≤ acc.1) (h1 : acc.1 ≤ (acc.2 : ℚ)) :
    0 ≤ (semanticStep W acc d).1 ∧
      (semanticStep W acc d).1 ≤ ((semanticStep W acc d).2 : ℚ) := by
  unfold semanticStep
  split_ifs
  · dsimp only
    push_cast
    constructor <;> linarith
  · dsimp only
    push_cast
    constructor <;> linarith
  · dsimp only
    push_cast
    constructor <;> linarith
  · exact ⟨h0, h1⟩

theorem semantic_fold_bounds (W : WordNet) :
    ∀ (details : List (String × String)) (acc : ℚ × Nat),
      0 ≤ acc.1 → acc.1 ≤ (acc.2 : ℚ) →
      0 ≤ (details.foldl (semanticStep W) acc).1 ∧
        (details.foldl (semanticStep W) acc).1 ≤
          (((details.foldl (semanticStep W) acc).2 : ℕ) : ℚ) := by
  intro details
  induction details with
  | nil => intro acc h0 h1; exact ⟨h0, h1⟩
  | cons d ds ih =>
    intro acc h0 h1
    simp only [List.foldl_cons]
    have hstep := semanticStep_bounds W acc d h0 h1
    exact ih (semanticStep W acc d) hstep.1 hstep.2

theorem semanticScore_bounds (W : WordNet) (ow vw : Finset String)
    (details : List (String × String)) :
    0 ≤ semanticScore W ow vw details ∧ semanticScore W ow vw details ≤ 1 := by
  unfold semanticScore
  split_ifs with h1 h2
  · have hb := semantic_fold_bounds W details (0, 0) (by norm_num) (by norm_num)
    have hpos : (0 : ℚ) < ((details.foldl (semanticStep W) (0, 0)).2 : ℚ) := by
      exact_mod_cast h2
    constructor
    · exact div_nonneg hb.1 (le_of_lt hpos)
    · rw [div_le_one hpos]
      exact hb.2
  · norm_num
  · norm_num

theorem lengthScoreOf_bounds (original variation : String) :
    0 ≤ lengthScoreOf original variation ∧ lengthScoreOf original variation ≤ 1 := by
  unfold lengthScoreOf
  split_ifs <;> norm_num

theorem wordCountScoreOf_bounds (ow vw : Finset String) :
    0 ≤ wordCountScoreOf ow vw ∧ wordCountScoreOf ow vw ≤ 1 := by
  unfold wordCountScoreOf
  constructor
  · exact le_max_left 0 _
  · apply max_le (by norm_num)
    have hnum : 0 ≤ ((((ow.card : ℤ) - vw.card).natAbs : ℕ) : ℚ) := by positivity
    have hden : (0 : ℚ) < (max ow.card 1 : ℕ) := by
      have : (1 : ℕ) ≤ max ow.card 1 := le_max_right _ _
      exact_mod_cast lt_of_lt_of_le Nat.zero_lt_one this
    have : 0 ≤ ((((ow.card : ℤ) - vw.card).natAbs : ℕ) : ℚ) /
        ((max ow.card 1 : ℕ) : ℚ) * (1/2) := by positivity
    linarith

theorem rawWeightedScore_bounds (a b c d e f : ℚ)
    (ha : 0 ≤ a ∧ a ≤ 1) (hb : 0 ≤ b ∧ b ≤ 1) (hc : 0 ≤ c ∧ c ≤ 1)
    (hd : 0 ≤ d ∧ d ≤ 1) (he : 0 ≤ e ∧ e ≤ 1) (hf : 0 ≤ f ∧ f ≤ 1) :
    0 ≤ rawWeightedScore a b c d e f ∧ rawWeightedScore a b c d e f ≤ 1 := by
  unfold rawWeightedScore
  constructor <;> nlinarith [ha.1, ha.2, hb.1, hb.2, hc.1, hc.2, hd.1, hd.2,
    he.1, he.2, hf.1, hf.2]

theorem applyBonus_le_one (c : Nat) (f : ℚ) : applyBonus c f ≤ 1 :=
  min_le_left 1 _

theorem applyBonus_nonneg (c : Nat) (f : ℚ) (h : 0 ≤ f) : 0 ≤ applyBonus c f := by
  unfold applyBonus
  apply le_min (by norm_num)
  split_ifs <;> linarith

/-- A lexical adapter that knows no words at all. -/
def trivialWordNet : WordNet :=
  ⟨fun _ _ => [], fun _ => [], fun _ => [], fun _ => []⟩

/-- C3 (amended): `_calculate_variation_score` is always ≤ 1 and returns
exactly 0 for an empty or case-insensitively identical variation, and its
value lies in [0, 1] whenever the number of verified position-aligned
replacements does not exceed the number of ReplacementMap-eligible original
tokens (in particular whenever every key of the replacement map is
alphanumeric). -/
theorem calculate_variation_score_bounds (W : WordNet) (original variation : String)
    (original_tokens variation_tokens : List String)
    (word_replacements : List (String × List String))
    (tagged : List (String × String)) :
    calculate_variation_score W original variation original_tokens variation_tokens
        word_replacements tagged ≤ 1 ∧
    ((variation = "" ∨ pyLower variation = pyLower original) →
      calculate_variation_score W original variation original_tokens variation_tokens
        word_replacements tagged = 0) ∧
    ((replacementDetails original_tokens variation_tokens word_replacements).length ≤
        replaceableCount original_tokens word_replacements →
      0 ≤ calculate_variation_score W original variation original_tokens
        variation_tokens word_replacements tagged) := by
  refine ⟨?_, ?_, ?_⟩
  · unfold calculate_variation_score
    split_ifs with h1 h2
    · norm_num
    · norm_num
    · exact applyBonus_le_one _ _
  · intro h
    unfold calculate_variation_score
    rw [if_pos h]
  · intro h
    unfold calculate_variation_score
    split_ifs with h1 h2
    · norm_num
    · norm_num
    · apply applyBonus_nonneg
      have hov := overlapOf_bounds original_tokens variation_tokens h2
      have h1b := overlapScore_bounds _ hov.1 hov.2
      have h2b := replacementRatioScore_bounds _ _ h
      have h3b := synonymQualityScoreOf_bounds word_replacements
        (replacementDetails original_tokens variation_tokens word_replacements)
      have h4b := semanticScore_bounds W (alnumWordsOf original_tokens)
        (alnumWordsOf variation_tokens)
        (replacementDetails original_tokens variation_tokens word_replacements)
      have h5b := lengthScoreOf_bounds original variation
      have h6b := wordCountScoreOf_bounds (alnumWordsOf original_tokens)
        (alnumWordsOf variation_tokens)
      exact (rawWeightedScore_bounds _ _ _ _ _ _ h1b h2b h3b h4b h5b h6b).1

/-- C3 witness: the amended theorem applied at a concrete degenerate
input. -/
theorem calculate_variation_score_bounds_witness :
    calculate_variation_score trivialWordNet "abc" "" ["abc"] [] [] [] ≤ 1 ∧
    calculate_variation_score trivialWordNet "abc" "" ["abc"] [] [] [] = 0 ∧
    0 ≤ calculate_variation_score trivialWordNet "abc" "" ["abc"] [] [] [] :=
  ⟨(calculate_variation_score_bounds trivialWordNet "abc" "" ["abc"] [] [] []).1,
   (calculate_variation_score_bounds trivialWordNet "abc" "" ["abc"] [] [] []).2.1
     (Or.inl rfl),
   (calculate_variation_score_bounds trivialWordNet "abc" "" ["abc"] [] [] []).2.2
     (by decide)⟩

/-- C3 counterexample: with a replacement-map key that is not an
alphanumeric token ("ca-n"), both aligned tokens replaced and only one
eligible original token, the replacement ratio is 2 and the score is
negative, contradicting the claimed [0, 1] bound. -/
theorem calculate_variation_score_counterexample :
    calculate_variation_score trivialWordNet "ca-n good" "cannot fine"
      ["ca-n", "good"] ["cannot", "fine"]
      [("ca-n", ["cannot"]), ("good", ["fine"])] [] < 0 := by
  have hdet : replacementDetails ["ca-n", "good"] ["cannot", "fine"]
      [("ca-n", ["cannot"]), ("good", ["fine"])] =
      [("ca-n", "cannot"), ("good", "fine")] := by decide
  have hic : (alnumWordsOf ["ca-n", "good"] ∩ alnumWordsOf ["cannot", "fine"]).card = 0 := by
    decide
  have hoc : (alnumWordsOf ["ca-n", "good"]).card = 1 := by decide
  have hvc : (alnumWordsOf ["cannot", "fine"]).card = 2 := by decide
  have hrc : replaceableCount ["ca-n", "good"]
      [("ca-n", ["cannot"]), ("good", ["fine"])] = 1 := by decide
  have hov : overlapOf ["ca-n", "good"] ["cannot", "fine"] = 0 := by
    unfold overlapOf
    rw [hic, hoc]
    norm_num
  have hovs : overlapScore 0 = 0 := by
    unfold overlapScore
    norm_num
  have hrrs : replacementRatioScore 2 1 = -10/3 := by
    unfold replacementRatioScore
    norm_num
  have hsq : synonymQualityScoreOf [("ca-n", ["cannot"]), ("good", ["fine"])]
      [("ca-n", "cannot"), ("good", "fine")] = 1 := by
    have h1 : dictFind? [("ca-n", ["cannot"]), ("good", ["fine"])] "ca-n" =
        some ["cannot"] := by decide
    have h2 : dictFind? [("ca-n", ["cannot"]), ("good", ["fine"])] "good" =
        some ["fine"] := by decide
    have h3 : (List.map pyLower ["cannot"]).indexOf "cannot" = 0 := by decide
    have h4 : (List.map pyLower ["fine"]).indexOf "fine" = 0 := by decide
    unfold synonymQualityScoreOf synQualitySum
    simp only [List.foldl_cons, List.foldl_nil, synQualityStep, h1, h2,
      synonymRankBonus, h3, h4]
    norm_num
  have hsem : semanticScore trivialWordNet (alnumWordsOf ["ca-n", "good"])
      (alnumWordsOf ["cannot", "fine"]) [("ca-n", "cannot"), ("good", "fine")] = 1 := by
    have hfold : List.foldl (semanticStep trivialWordNet) ((0 : ℚ), (0 : ℕ))
        [("ca-n", "cannot"), ("good", "fine")] = (0, 0) := by
      simp only [List.foldl_cons, List.foldl_nil, semanticStep, trivialWordNet]
      norm_num
    unfold semanticScore
    rw [if_pos (by decide), hfold]
    norm_num
  have hls : lengthScoreOf "ca-n good" "cannot fine" = 1 := by
    have h9 : ("ca-n good").length = 9 := by decide
    have h11 : ("cannot fine").length = 11 := by decide
    unfold lengthScoreOf
    rw [h9, h11]
    norm_num
  have hwc : wordCountScoreOf (alnumWordsOf ["ca-n", "good"])
      (alnumWordsOf ["cannot", "fine"]) = 1/2 := by
    unfold wordCountScoreOf
    rw [hoc, hvc]
    norm_num [max_def]
  unfold calculate_variation_score
  rw [if_neg (by decide), if_neg (by decide), hdet, hrc]
  norm_num [hov, hovs, hrrs, hsq, hsem, hls, hwc, applyBonus, rawWeightedScore,
    min_def]

/-! ## Eligibility and synonym lookup (`_should_replace_word`,
`_map_pos_tag`, `_get_synonyms_for_word`) -/

/-- The stop-word set of `_should_replace_word`. -/
def stop_words : List String :=
  ["the", "a", "an", "and", "or", "but", "in", "on", "at", "to", "for",
   "of", "with", "by", "is", "are", "was", "were", "be", "been", "have",
   "has", "had", "do", "does", "did", "will", "would", "could", "should",
   "this", "that", "these", "those", "it", "its", "he", "she", "they"]

/-- `_should_replace_word`: non-empty, alphanumeric (possibly after
dropping apostrophes), length ≥ 3, not a stop word, and tagged as
noun/verb/adjective/adverb when a tag is available. -/
def should_replace_word (word : String) (posTag : Option String) : Bool :=
  if word = "" then false
  else if ¬ pyIsAlnum word ∧ ¬ pyIsAlnum (stripApos word) then false
  else if word.length < 3 then false
  else if pyLower word ∈ stop_words then false
  else match posTag with
    | some tag =>
      pyStartsWith (pyUpper tag) "N" ∨ pyStartsWith (pyUpper tag) "V" ∨
        pyStartsWith (pyUpper tag) "J" ∨ pyStartsWith (pyUpper tag) "R"
    | none => true

/-- `_map_pos_tag`: NLTK tag prefix → WordNet POS bucket. -/
def map_pos_tag (tag : Option String) : Option String :=
  match tag with
  | none => none
  | some t =>
    if pyStartsWith (pyUpper t) "N" then some "n"
    else if pyStartsWith (pyUpper t) "V" then some "v"
    else if pyStartsWith (pyUpper t) "J" then some "a"
    else if pyStartsWith (pyUpper t) "R" then some "r"
    else none

/-- `name.replace(underscore, space)` (single-character pattern, hence
character-wise). -/
def underscoreToSpace (s : String) : String :=
  ⟨s.toList.map (fun c => if c = '_' then ' ' else c)⟩

/-- Ordered-set insertion: `synonyms.add(s)` keeping first-encounter
order. -/
def insertNew (acc : List String) (s : String) : List String :=
  if s ∈ acc then acc else acc ++ [s]

/-- The "too similar" rejection rule: same first two characters and length
difference ≤ 1. -/
def tooSimilar (word_lower synonym : String) : Bool :=
  synonym.toList.take 2 = word_lower.toList.take 2 ∧
    max synonym.length word_lower.length - min synonym.length word_lower.length ≤ 1

/-- The inner lemma loop of `_get_synonyms_for_word` over one sense group,
with the `break` once `max_synonyms` candidates are collected. -/
def collectSynLemmas (word_lower : String) (max_synonyms : Nat) :
    List String → List String → List String
  | [], acc => acc
  | name :: rest, acc =>
    if pyLower (underscoreToSpace name) ≠ word_lower ∧
        (pySplit (pyLower (underscoreToSpace name))).length = 1 then
      let acc2 :=
        if (pyLower (underscoreToSpace name)).length ≥ 2 ∧
            ¬ tooSimilar word_lower (pyLower (underscoreToSpace name)) then
          insertNew acc (pyLower (underscoreToSpace name))
        else acc
      if acc2.length ≥ max_synonyms then acc2
      else collectSynLemmas word_lower max_synonyms rest acc2
    else collectSynLemmas word_lower max_synonyms rest acc

/-- The outer sense-group loop of `_get_synonyms_for_word` (first 5 sense
groups, with the outer `break`). -/
def collectSynsets (W : WordNet) (word_lower : String) (max_synonyms : Nat) :
    List Nat → List String → List String
  | [], acc => acc
  | s :: rest, acc =>
    if (collectSynLemmas word_lower max_synonyms (W.lemmasOf s) acc).length ≥
        max_synonyms then
      collectSynLemmas word_lower max_synonyms (W.lemmasOf s) acc
    else
      collectSynsets W word_lower max_synonyms rest
        (collectSynLemmas word_lower max_synonyms (W.lemmasOf s) acc)

/-- The hypernym lemma loop (single-word lemmas of length ≥ 3; the `break`
only leaves the innermost loop). -/
def collectHypLemmas (word_lower : String) (max_synonyms : Nat) :
    List String → List String → List String
  | [], acc => acc
  | name :: rest, acc =>
    if pyLower (underscoreToSpace name) ≠ word_lower ∧
        (pySplit (pyLower (underscoreToSpace name))).length = 1 ∧
        (pyLower (underscoreToSpace name)).length ≥ 3 then
      if (insertNew acc (pyLower (underscoreToSpace name))).length ≥ max_synonyms then
        insertNew acc (pyLower (underscoreToSpace name))
      else
        collectHypLemmas word_lower max_synonyms rest
          (insertNew acc (pyLower (underscoreToSpace name)))
    else collectHypLemmas word_lower max_synonyms rest acc

/-- The hypernym pass over the first 2 sense groups (first hypernym each;
no outer break). -/
def collectHypernyms (W : WordNet) (word_lower : String) (max_synonyms : Nat) :
    List Nat → List String → List String
  | [], acc => acc
  | s :: rest, acc =>
    collectHypernyms W word_lower max_synonyms rest
      (((W.hypernymsOf s).take 1).foldl
        (fun a h => collectHypLemmas word_lower max_synonyms (W.lemmasOf h) a) acc)

/-- The sense-group list selection of `_get_synonyms_for_word`: query with
the mapped POS when a (truthy) tag is given, falling back to the
unrestricted query when that yields nothing. -/
def synsetsForLookup (W : WordNet) (word_lower : String)
    (posTag : Option String) : List Nat :=
  match posTag with
  | some t =>
    if t ≠ "" then
      if (W.synsetsOf word_lower (map_pos_tag (some t))).isEmpty then
        W.synsetsOf word_lower none
      else W.synsetsOf word_lower (map_pos_tag (some t))
    else W.synsetsOf word_lower none
  | none => W.synsetsOf word_lower none

/-- The candidate set of `_get_synonyms_for_word` in first-encounter order
(before the Python `list(set)` enumeration). -/
def collectedSynonyms (W : WordNet) (word_lower : String) (max_synonyms : Nat)
    (synsets : List Nat) : List String :=
  if (collectSynsets W word_lower max_synonyms (synsets.take 5) []).length < 3 ∧
      ¬ synsets.isEmpty then
    collectHypernyms W word_lower max_synonyms (synsets.take 2)
      (collectSynsets W word_lower max_synonyms (synsets.take 5) [])
  else collectSynsets W word_lower max_synonyms (synsets.take 5) []

/-- `_get_synonyms_for_word`. `E` models the unspecified iteration order of
the Python `set` when it is converted to a list (`list(synonyms)`); it is
assumed (where needed) to permute the collected candidates. -/
def get_synonyms_for_word (W : WordNet) (E : List String → List String)
    (word : String) (posTag : Option String) (max_synonyms : Nat)
    (style : String) : List String :=
  if (synsetsForLookup W (pyLower word) posTag).isEmpty then []
  else
    (if style ≠ "balanced" then
      filter_synonyms_by_style
        (E (collectedSynonyms W (pyLower word) max_synonyms
          (synsetsForLookup W (pyLower word) posTag))) style
    else
      E (collectedSynonyms W (pyLower word) max_synonyms
        (synsetsForLookup W (pyLower word) posTag))).take max_synonyms

/-- The replacement-map construction loop of `paraphrase_sentence`
(lines building `word_replacements` and `replaceable_words`). -/
def buildReplacementMap (W : WordNet) (E : List String → List String)
    (style : String) (tagged : List (String × String)) :
    List (String × List String) × List (Nat × String × String) :=
  tagged.enum.foldl (fun acc p =>
    if should_replace_word p.2.1 (some p.2.2) then
      if ¬ (get_synonyms_for_word W E p.2.1 (some p.2.2) 15 style).isEmpty then
        (dictInsert acc.1 (pyLower p.2.1)
            (get_synonyms_for_word W E p.2.1 (some p.2.2) 15 style),
          acc.2 ++ [(p.1, p.2.1, p.2.2)])
      else acc
    else acc) ([], [])

/-! ## Divergence metrics and the turnitin-proof generator
(`_create_turnitin_proof_paraphrase`, strategy 6) -/

/-- Word-level change rate: `1 − |orig ∩ new| / |orig|` over lowercased
alphanumeric word sets (the sets built from the token list and from
`text.split()` respectively). -/
def wordChangeRate (tokens : List String) (text : String) : ℚ :=
  1 - ((alnumWordsOf tokens ∩ alnumWordsOf (pySplit text)).card : ℚ) /
    (alnumWordsOf tokens).card

/-- N-gram change rate with the source's fallback to the word change rate
when the original has no n-grams of that size. -/
def ngramChangeRate (tokens : List String) (text : String) (n : Nat) : ℚ :=
  if (getNgrams (alnumListOf tokens) n).toFinset ≠ ∅ then
    1 - (((getNgrams (alnumListOf tokens) n).toFinset ∩
        (getNgrams (alnumListOf (pySplit text)) n).toFinset).card : ℚ) /
      ((getNgrams (alnumListOf tokens) n).toFinset.card : ℚ)
  else wordChangeRate tokens text

/-- Combined change rate: 0.4·word + 0.3·bigram + 0.3·trigram. -/
def combinedChangeRate (tokens : List String) (text : String) : ℚ :=
  wordChangeRate tokens text * (4/10) + ngramChangeRate tokens text 2 * (3/10) +
    ngramChangeRate tokens text 3 * (3/10)

/-- Strategy 6 of `_create_turnitin_proof_paraphrase`: the acceptance gate
(main thresholds, then the looser word-only fallback, else nothing). -/
def turnitinGate (original : String) (tokens : List String)
    (sentence_text : String) : Option String :=
  if alnumWordsOf tokens = ∅ then none
  else if wordChangeRate tokens sentence_text ≥ 70/100 ∧
      ngramChangeRate tokens sentence_text 2 ≥ 60/100 ∧
      ngramChangeRate tokens sentence_text 3 ≥ 50/100 ∧
      combinedChangeRate tokens sentence_text ≥ 65/100 ∧
      pyLower sentence_text ≠ pyLower original ∧
      sentence_text.length > 0 then some sentence_text
  else if wordChangeRate tokens sentence_text ≥ 75/100 ∧
      pyLower sentence_text ≠ pyLower original then some sentence_text
  else none

/-- The randomised-generation oracle: one field per `random.*` call site,
plus the external tokenizer/tagger, the Python set-enumeration order, and
the regex phases (see the module docstring). -/
structure Oracle where
  tokenize : String → Except String (List String)
  posTag : List String → Except String (List (String × String))
  setEnum : List String → List String
  tpUniform : ℚ
  tpSample : List (Nat × String × String) → Nat → List (Nat × String × String)
  tpChoice : Nat → Nat
  transform : String → String
  loopUniform : Nat → ℚ
  loopRandint : Nat → Nat
  loopSample : Nat → List (Nat × String × String) → Nat → List (Nat × String × String)
  loopChoice : Nat → Nat → Nat
  fixPunct : String → String
  fixPunct2 : String → String

/-- Synonym selection for one word: aggressive mode prefers the
least-common tail of the candidate list (`synonyms[start:]` with
`start = max(len − len/3, len/2)` when > 3 candidates, else the last
candidate when > 1, else the only one); standard mode picks uniformly. -/
def pickReplacement (anti : Bool) (choiceIdx : Nat) (synonyms : List String) : String :=
  if anti then
    if synonyms.length > 3 then
      pyChoice choiceIdx
        (synonyms.drop (max (synonyms.length - synonyms.length / 3)
          (synonyms.length / 2)))
    else if synonyms.length > 1 then
      pyChoice choiceIdx (synonyms.drop (synonyms.length - 1))
    else synonyms.headD ""
  else pyChoice choiceIdx synonyms

/-- The shared replacement loop over the sampled words: substitutes the
chosen synonym at each index, preserving capitalization; returns the new
token list and `replacements_made`. -/
def applyReplacements (anti : Bool) (choice : Nat → Nat)
    (wr : List (String × List String)) (tokens : List String)
    (words_to_replace : List (Nat × String × String)) : List String × Nat :=
  ((words_to_replace.foldl (fun (acc : List String × Nat × Nat) q =>
    match dictFind? wr (pyLower q.2.1) with
    | none => acc
    | some synonyms =>
      if synonyms.isEmpty then acc
      else
        (acc.1.set q.1
          (if q.2.1 ≠ "" ∧ (q.2.1.toList.headD ' ').isUpper then
            pyCapitalize (pickReplacement anti (choice acc.2.2) synonyms)
          else pickReplacement anti (choice acc.2.2) synonyms),
         acc.2.1 + 1, acc.2.2 + 1))
    (tokens, 0, 0)).1,
   (words_to_replace.foldl (fun (acc : List String × Nat × Nat) q =>
    match dictFind? wr (pyLower q.2.1) with
    | none => acc
    | some synonyms =>
      if synonyms.isEmpty then acc
      else
        (acc.1.set q.1
          (if q.2.1 ≠ "" ∧ (q.2.1.toList.headD ' ').isUpper then
            pyCapitalize (pickReplacement anti (choice acc.2.2) synonyms)
          else pickReplacement anti (choice acc.2.2) synonyms),
         acc.2.1 + 1, acc.2.2 + 1))
    (tokens, 0, 0)).2.1)

/-- `_create_turnitin_proof_paraphrase`: maximum replacement (85–95% of the
eligible words, least-common synonyms), structural rearrangement, the
regex/transition phases (the `transform` oracle), then the divergence
gate. -/
def create_turnitin_proof_paraphrase (O : Oracle) (original : String)
    (tokens : List String) (tagged : List (String × String))
    (word_replacements : List (String × List String))
    (replaceable_words : List (Nat × String × String)) : Option String :=
  if replaceable_words.length < 1 then none
  else
    turnitinGate original tokens
      (O.transform (joinSpace (rearrange_sentence_structure
        ((applyReplacements true O.tpChoice word_replacements tokens
          (O.tpSample replaceable_words
            (min (max 1 (pyTrunc ((replaceable_words.length : ℚ) * O.tpUniform)).toNat)
              replaceable_words.length))).1)
        tagged)))

/-! ## The candidate-generation loop and orchestrator (`paraphrase_sentence`) -/

/-- Loop state: accepted variations (in order) and the lowercased
`seen_variations` set. -/
structure GenState where
  variations : List String
  seen : Finset String

/-- The aggressive-mode acceptance check of the generation loop: at least
70% word change, and (when the original has bigrams) at most 55% bigram
overlap; skipped entirely when the original word set is empty. -/
def antiGateOk (tokens : List String) (variation : String) : Bool :=
  if alnumWordsOf tokens = ∅ then true
  else if wordChangeRate tokens variation < 70/100 then false
  else if (getNgrams (alnumListOf tokens) 2).toFinset ≠ ∅ ∧
      (((getNgrams (alnumListOf tokens) 2).toFinset ∩
          (getNgrams (alnumListOf (pySplit variation)) 2).toFinset).card : ℚ) /
        ((getNgrams (alnumListOf tokens) 2).toFinset.card : ℚ) > 55/100 then false
  else true

/-- The per-iteration sampled word set: aggressive mode takes 85–95% of the
eligible words (minimum 1), standard mode a uniformly random non-empty
subset. -/
def loopSampleOf (O : Oracle) (anti : Bool) (rw : List (Nat × String × String))
    (i : Nat) : List (Nat × String × String) :=
  if anti then
    O.loopSample i rw
      (min (max 1 (pyTrunc ((rw.length : ℚ) * O.loopUniform i)).toNat) rw.length)
  else O.loopSample i rw (min rw.length (O.loopRandint i))

/-- The candidate string built in iteration `i`: substitution followed by
punctuation normalisation of the joined tokens. -/
def loopCandidate (O : Oracle) (anti : Bool) (wr : List (String × List String))
    (tokens : List String) (rw : List (Nat × String × String)) (i : Nat) : String :=
  O.fixPunct (joinSpace
    (applyReplacements anti (O.loopChoice i) wr tokens (loopSampleOf O anti rw i)).1)

/-- `replacements_made` in iteration `i`. -/
def loopMade (O : Oracle) (anti : Bool) (wr : List (String × List String))
    (tokens : List String) (rw : List (Nat × String × String)) (i : Nat) : Nat :=
  (applyReplacements anti (O.loopChoice i) wr tokens (loopSampleOf O anti rw i)).2

/-- One iteration of the generation loop (`for variation_num in
range(num_variations * 5)`), including the early `break` (modelled as a
no-op once the target count is reached) and the acceptance checks. -/
def generationStep (O : Oracle) (anti : Bool) (num_variations : Nat)
    (original : String) (tokens : List String)
    (wr : List (String × List String)) (rw : List (Nat × String × String))
    (st : GenState) (i : Nat) : GenState :=
  if st.variations.length ≥ num_variations then st
  else if loopMade O anti wr tokens rw i = 0 then st
  else if anti ∧ ¬ antiGateOk tokens (loopCandidate O anti wr tokens rw i) then st
  else if pyLower (loopCandidate O anti wr tokens rw i) ≠ pyLower original ∧
      pyLower (loopCandidate O anti wr tokens rw i) ∉ st.seen ∧
      (loopCandidate O anti wr tokens rw i).length > 0 then
    ⟨st.variations ++ [loopCandidate O anti wr tokens rw i],
      insert (pyLower (loopCandidate O anti wr tokens rw i)) st.seen⟩
  else st

/-- The anti-detection pre-step: run the proof generator and seed the
variation list with its result (the truthiness and `seen` checks of the
source are kept although `seen` starts empty). -/
def initialState (O : Oracle) (anti : Bool) (original : String)
    (tokens : List String) (tagged : List (String × String))
    (wr : List (String × List String)) (rw : List (Nat × String × String)) :
    GenState × Option String :=
  if anti then
    match create_turnitin_proof_paraphrase O original tokens tagged wr rw with
    | some tp =>
      if tp ≠ "" ∧ pyLower tp ∉ (∅ : Finset String) then
        (⟨[tp], {pyLower tp}⟩, some tp)
      else (⟨[], ∅⟩, some tp)
    | none => (⟨[], ∅⟩, none)
  else (⟨[], ∅⟩, none)

/-- The full candidate-generation phase: proof pre-step then the bounded
loop. Returns the loop state and the proof-generator result. -/
def runGeneration (O : Oracle) (anti : Bool) (num_variations : Nat)
    (original : String) (tokens : List String)
    (tagged : List (String × String)) (wr : List (String × List String))
    (rw : List (Nat × String × String)) : GenState × Option String :=
  ((List.range (num_variations * 5)).foldl
      (generationStep O anti num_variations original tokens wr rw)
      (initialState O anti original tokens tagged wr rw).1,
    (initialState O anti original tokens tagged wr rw).2)

/-- Capitalisation preservation applied to the forced replacement. -/
def forcedReplacement (word r0 : String) : String :=
  if word ≠ "" ∧ (word.toList.headD ' ').isUpper then pyCapitalize r0 else r0

/-- The forced single-replacement fallback (lines 842–856): replace the
first eligible word with its first listed synonym. -/
def forceFallback (O : Oracle) (original : String) (tokens : List String)
    (wr : List (String × List String)) (rw : List (Nat × String × String)) :
    List String :=
  match rw with
  | [] => []
  | (idx, word, _) :: _ =>
    match dictFind? wr (pyLower word) with
    | some (r0 :: _) =>
      if pyLower (O.fixPunct2 (joinSpace
          (tokens.set idx (forcedReplacement word r0)))) ≠ pyLower original then
        [O.fixPunct2 (joinSpace (tokens.set idx (forcedReplacement word r0)))]
      else []
    | _ => []

/-- The fallbacks after generation: force one replacement if nothing was
produced, then fall back to the original itself. -/
def postGenVariations (O : Oracle) (original : String) (tokens : List String)
    (wr : List (String × List String)) (rw : List (Nat × String × String))
    (genVars : List String) : List String :=
  if (if genVars.isEmpty ∧ ¬ rw.isEmpty then forceFallback O original tokens wr rw
      else genVars).isEmpty then [original]
  else if genVars.isEmpty ∧ ¬ rw.isEmpty then forceFallback O original tokens wr rw
  else genVars

/-- `len(variation) / len(original)` guarded against an empty original. -/
def lengthRatioQ (original variation : String) : ℚ :=
  if original.length > 0 then (variation.length : ℚ) / original.length else 1

/-- The per-variant length band check of the filter (shorter < 0.95,
longer > 1.05, the dead "same" band inside the non-"same" branch kept for
fidelity). -/
def lengthBandPred (length_preference original v : String) : Bool :=
  if length_preference = "shorter" then decide (lengthRatioQ original v < 95/100)
  else if length_preference = "longer" then decide (lengthRatioQ original v > 105/100)
  else if length_preference = "same" then
    decide (9/10 ≤ lengthRatioQ original v ∧ lengthRatioQ original v ≤ 11/10)
  else false

/-- The length-preference filter, keeping up to 2× the target count, or the
unfiltered list when the filter empties it. -/
def applyLengthFilter (length_preference : String) (num_variations : Nat)
    (original : String) (variations : List String) : List String :=
  if length_preference ≠ "same" then
    if ¬ (variations.filter (lengthBandPred length_preference original)).isEmpty then
      (variations.filter (lengthBandPred length_preference original)).take
        (num_variations * 2)
    else variations
  else variations

/-- Python `round(q, 3)` (half-to-even on the exact rational). -/
def pyRound3 (q : ℚ) : ℚ :=
  if q * 1000 - ⌊q * 1000⌋ < 1/2 then (⌊q * 1000⌋ : ℚ) / 1000
  else if q * 1000 - ⌊q * 1000⌋ > 1/2 then ((⌊q * 1000⌋ : ℚ) + 1) / 1000
  else if ⌊q * 1000⌋ % 2 = 0 then (⌊q * 1000⌋ : ℚ) / 1000
  else ((⌊q * 1000⌋ : ℚ) + 1) / 1000

/-- The candidate list fed to the scoring stage: generation, fallbacks,
then the length-preference filter. -/
def candidateList (O : Oracle) (W : WordNet) (anti : Bool) (num_variations : Nat)
    (style length_preference original : String) (tokens : List String)
    (tagged : List (String × String)) : List String :=
  applyLengthFilter length_preference num_variations original
    (postGenVariations O original tokens
      (buildReplacementMap W O.setEnum style tagged).1
      (buildReplacementMap W O.setEnum style tagged).2
      (runGeneration O anti num_variations original tokens tagged
        (buildReplacementMap W O.setEnum style tagged).1
        (buildReplacementMap W O.setEnum style tagged).2).1.variations)

/-- Scoring stage: each surviving variant (paired with its tokenization) is
scored, then the list is stable sorted descending by score (Python
`sort(reverse=True, key=score)`). -/
def scoredSorted (W : WordNet) (original : String) (tokens : List String)
    (wr : List (String × List String)) (tagged : List (String × String))
    (post : List String) (vtoks : List (List String)) : List (ℚ × String) :=
  ((post.zip vtoks).map (fun p =>
    (calculate_variation_score W original p.1 tokens p.2 wr tagged, p.1))).mergeSort
    (fun a b => decide (b.1 ≤ a.1))

/-- The result record of `paraphrase_sentence`. The per-variation
`variation_stats` list of the source is not modelled (no claim concerns
it); paths on which the source omits the `turnitin_proof` /
`anti_detection` keys use `none` / the passed flag. -/
structure ParaphraseResult where
  original : String
  variations : List String
  best_variation : String
  best_score : ℚ
  turnitin_proof : Option String
  style : String
  length_preference : String
  anti_detection : Bool
  word_replacements : List (String × List String)

/-- The empty-input result. -/
def emptyResult (style length_preference : String) (anti : Bool) : ParaphraseResult :=
  ⟨"", [], "", 0, none, style, length_preference, anti, []⟩

/-- The degraded result returned on any caught failure and in the
no-eligible-words early return. -/
def fallbackResult (original style length_preference : String)
    (anti : Bool) : ParaphraseResult :=
  ⟨original, [original], original, 0, none, style, length_preference, anti, []⟩

/-- Response assembly after a successful scoring stage. -/
def assembleResult (O : Oracle) (W : WordNet) (num_variations : Nat)
    (style length_preference : String) (anti : Bool) (original : String)
    (tokens : List String) (tagged : List (String × String))
    (vtoks : List (List String)) : ParaphraseResult :=
  { original := original
    variations := ((scoredSorted W original tokens
        (buildReplacementMap W O.setEnum style tagged).1 tagged
        (candidateList O W anti num_variations style length_preference original
          tokens tagged) vtoks).take num_variations).map (fun s => s.2)
    best_variation :=
      match scoredSorted W original tokens
          (buildReplacementMap W O.setEnum style tagged).1 tagged
          (candidateList O W anti num_variations style length_preference original
            tokens tagged) vtoks with
      | s :: _ => s.2
      | [] =>
        (candidateList O W anti num_variations style length_preference original
          tokens tagged).headD ""
    best_score := pyRound3
      (match scoredSorted W original tokens
          (buildReplacementMap W O.setEnum style tagged).1 tagged
          (candidateList O W anti num_variations style length_preference original
            tokens tagged) vtoks with
        | s :: _ => s.1
        | [] => 0)
    turnitin_proof :=
      if anti then
        (runGeneration O anti num_variations original tokens tagged
          (buildReplacementMap W O.setEnum style tagged).1
          (buildReplacementMap W O.setEnum style tagged).2).2
      else none
    style := style
    length_preference := length_preference
    anti_detection := anti
    word_replacements :=
      (buildReplacementMap W O.setEnum style tagged).1.map
        (fun p => (p.1, p.2.mergeSort (fun a b => decide (a ≤ b)))) }

/-- The body of the orchestrator's `try` block; any `.error` corresponds to
an exception caught by its `except` handler (tokenization, tagging, or the
per-variant tokenization feeding the scorer). -/
def paraphraseCore (O : Oracle) (W : WordNet) (num_variations : Nat)
    (style length_preference : String) (anti : Bool) (original : String) :
    Except String ParaphraseResult :=
  match O.tokenize original with
  | .error e => .error e
  | .ok tokens =>
    match O.posTag tokens with
    | .error e => .error e
    | .ok tagged =>
      if (buildReplacementMap W O.setEnum style tagged).1.isEmpty ∨
          (buildReplacementMap W O.setEnum style tagged).2.isEmpty then
        .ok (fallbackResult original style length_preference anti)
      else
        match (candidateList O W anti num_variations style length_preference
            original tokens tagged).mapM O.tokenize with
        | .error e => .error e
        | .ok vtoks =>
          .ok (assembleResult O W num_variations style length_preference anti
            original tokens tagged vtoks)

/-- `paraphrase_sentence`: empty-input early return, the `try` body, and
the catch-all fallback. -/
def paraphrase_sentence (O : Oracle) (W : WordNet) (sentence : String)
    (num_variations : Nat) (style length_preference : String)
    (anti_detection : Bool) : ParaphraseResult :=
  if pyStrip sentence = "" then emptyResult style length_preference anti_detection
  else
    match paraphraseCore O W num_variations style length_preference anti_detection
        (pyStrip sentence) with
    | .ok r => r
    | .error _ =>
      fallbackResult (pyStrip sentence) style length_preference anti_detection

/-! ## C1: the divergence gate of the proof generator -/

theorem turnitinGate_spec (original : String) (tokens : List String)
    (t s : String) (h : turnitinGate original tokens t = some s) :
    s = t ∧ pyLower s ≠ pyLower original ∧
      ((wordChangeRate tokens s ≥ 70/100 ∧ ngramChangeRate tokens s 2 ≥ 60/100 ∧
          ngramChangeRate tokens s 3 ≥ 50/100 ∧
          combinedChangeRate tokens s ≥ 65/100) ∨
        wordChangeRate tokens s ≥ 75/100) := by
  unfold turnitinGate at h
  split at h
  · simp at h
  · split at h
    · rename_i hcond
      injection h with h
      subst h
      exact ⟨rfl, hcond.2.2.2.2.1,
        Or.inl ⟨hcond.1, hcond.2.1, hcond.2.2.1, hcond.2.2.2.1⟩⟩
    · split at h
      · rename_i hcond
        injection h with h
        subst h
        exact ⟨rfl, hcond.2, Or.inr hcond.1⟩
      · simp at h

/-- C1: for every oracle (hence every random seed), original sentence,
token list, tag list, replacement map and replaceable-word list, whenever
`_create_turnitin_proof_paraphrase` returns a sentence, that sentence
differs case-insensitively from the original, and its recomputed word /
bigram / trigram / combined change rates satisfy the main gate
(≥ 0.70 / 0.60 / 0.50 / 0.65) or the looser word-only fallback (≥ 0.75). -/
theorem create_turnitin_proof_paraphrase_gate (O : Oracle) (original : String)
    (tokens : List String) (tagged : List (String × String))
    (wr : List (String × List String)) (rw : List (Nat × String × String))
    (s : String)
    (h : create_turnitin_proof_paraphrase O original tokens tagged wr rw = some s) :
    pyLower s ≠ pyLower original ∧
      ((wordChangeRate tokens s ≥ 70/100 ∧ ngramChangeRate tokens s 2 ≥ 60/100 ∧
          ngramChangeRate tokens s 3 ≥ 50/100 ∧
          combinedChangeRate tokens s ≥ 65/100) ∨
        wordChangeRate tokens s ≥ 75/100) := by
  unfold create_turnitin_proof_paraphrase at h
  split at h
  · simp at h
  · exact (turnitinGate_spec _ _ _ _ h).2

/-- Concrete oracle for the C1 witness: samples take the front of the
population, choices take the first element, the regex/punctuation phases
are the identity (as they are on pattern-free text). -/
def oracleC1 : Oracle :=
  { tokenize := fun s => .ok (pySplit s)
    posTag := fun ts => .ok (ts.map (fun t => (t, "NN")))
    setEnum := id
    tpUniform := 9/10
    tpSample := fun pop k => pop.take k
    tpChoice := fun _ => 0
    transform := id
    loopUniform := fun _ => 9/10
    loopRandint := fun _ => 1
    loopSample := fun _ pop k => pop.take k
    loopChoice := fun _ _ => 0
    fixPunct := id
    fixPunct2 := id }

def tokensC1 : List String := ["cats", "hunt", "mice", "here"]

def taggedC1 : List (String × String) :=
  [("cats", "NN"), ("hunt", "NN"), ("mice", "NN"), ("here", "NN")]

def wrC1 : List (String × List String) :=
  [("cats", ["felines"]), ("hunt", ["chase"]), ("mice", ["rodents"]),
   ("here", ["nearby"])]

def rwC1 : List (Nat × String × String) :=
  [(0, "cats", "NN"), (1, "hunt", "NN"), (2, "mice", "NN"), (3, "here", "NN")]

theorem pyTrunc_four_ninths : (pyTrunc ((4 : ℚ) * (9/10))).toNat = 3 := by
  have h : ⌊(4 : ℚ) * (9/10)⌋ = 3 := by
    rw [Int.floor_eq_iff]
    norm_num
  unfold pyTrunc
  rw [if_pos (by norm_num), h]
  rfl

theorem wordChangeRate_C1 :
    wordChangeRate tokensC1 "felines chase rodents here" = 3/4 := by
  have h1 : (alnumWordsOf tokensC1 ∩
      alnumWordsOf (pySplit "felines chase rodents here")).card = 1 := by decide
  have h2 : (alnumWordsOf tokensC1).card = 4 := by decide
  unfold wordChangeRate
  rw [h1, h2]
  norm_num

theorem bigramChangeRate_C1 :
    ngramChangeRate tokensC1 "felines chase rodents here" 2 = 1 := by
  have h1 : ((getNgrams (alnumListOf tokensC1) 2).toFinset ∩
      (getNgrams (alnumListOf (pySplit "felines chase rodents here")) 2).toFinset).card
        = 0 := by decide
  have h2 : ((getNgrams (alnumListOf tokensC1) 2).toFinset.card) = 3 := by decide
  unfold ngramChangeRate
  rw [if_pos (by decide), h1, h2]
  norm_num

theorem trigramChangeRate_C1 :
    ngramChangeRate tokensC1 "felines chase rodents here" 3 = 1 := by
  have h1 : ((getNgrams (alnumListOf tokensC1) 3).toFinset ∩
      (getNgrams (alnumListOf (pySplit "felines chase rodents here")) 3).toFinset).card
        = 0 := by decide
  have h2 : ((getNgrams (alnumListOf tokensC1) 3).toFinset.card) = 2 := by decide
  unfold ngramChangeRate
  rw [if_pos (by decide), h1, h2]
  norm_num

theorem create_turnitin_C1_eval :
    create_turnitin_proof_paraphrase oracleC1 "cats hunt mice here" tokensC1
      taggedC1 wrC1 rwC1 = some "felines chase rodents here" := by
  have hcnt : min (max 1 (pyTrunc ((rwC1.length : ℚ) * oracleC1.tpUniform)).toNat)
      rwC1.length = 3 := by
    have hlen : (rwC1.length : ℚ) = 4 := by norm_num [rwC1]
    have hu : oracleC1.tpUniform = 9/10 := rfl
    rw [hlen, hu, pyTrunc_four_ninths]
    decide
  have htext : oracleC1.transform (joinSpace (rearrange_sentence_structure
      ((applyReplacements true oracleC1.tpChoice wrC1 tokensC1
        (oracleC1.tpSample rwC1 3)).1) taggedC1)) =
      "felines chase rodents here" := by decide
  unfold create_turnitin_proof_paraphrase
  rw [if_neg (by decide), hcnt, htext]
  unfold turnitinGate
  rw [if_neg (by decide)]
  rw [if_pos ?hcond]
  case hcond =>
    refine ⟨?_, ?_, ?_, ?_, by decide, by decide⟩
    · rw [wordChangeRate_C1]; norm_num
    · rw [bigramChangeRate_C1]; norm_num
    · rw [trigramChangeRate_C1]; norm_num
    · unfold combinedChangeRate
      rw [wordChangeRate_C1, bigramChangeRate_C1, trigramChangeRate_C1]
      norm_num

/-- C1 witness: the gate theorem applied to a concrete run on which the
proof generator succeeds. -/
theorem create_turnitin_proof_paraphrase_gate_witness :
    pyLower "felines chase rodents here" ≠ pyLower "cats hunt mice here" ∧
      ((wordChangeRate tokensC1 "felines chase rodents here" ≥ 70/100 ∧
          ngramChangeRate tokensC1 "felines chase rodents here" 2 ≥ 60/100 ∧
          ngramChangeRate tokensC1 "felines chase rodents here" 3 ≥ 50/100 ∧
          combinedChangeRate tokensC1 "felines chase rodents here" ≥ 65/100) ∨
        wordChangeRate tokensC1 "felines chase rodents here" ≥ 75/100) :=
  create_turnitin_proof_paraphrase_gate oracleC1 "cats hunt mice here" tokensC1
    taggedC1 wrC1 rwC1 "felines chase rodents here" create_turnitin_C1_eval

/-! ## Generic pipeline lemmas -/

theorem foldl_preserve {σ β : Type} (P : σ → Prop) (f : σ → β → σ) :
    ∀ (l : List β) (s : σ), P s → (∀ s b, P s → P (f s b)) → P (l.foldl f s) := by
  intro l
  induction l with
  | nil => intro s h _; exact h
  | cons b bs ih => intro s h hstep; exact ih (f s b) (hstep s b h) hstep

theorem mapM_ok_length {α β : Type} (f : α → Except String β) :
    ∀ (l : List α) (res : List β), l.mapM f = .ok res → res.length = l.length := by
  intro l
  induction l with
  | nil =>
    intro res h
    simp only [List.mapM_nil] at h
    injection h with h
    rw [← h]
    rfl
  | cons x xs ih =>
    intro res h
    rw [List.mapM_cons] at h
    cases hfx : f x with
    | error e => rw [hfx] at h; simp [Bind.bind, Except.bind] at h
    | ok y =>
      rw [hfx] at h
      cases hys : xs.mapM f with
      | error e =>
        rw [hys] at h
        simp [Bind.bind, Except.bind] at h
      | ok ys =>
        rw [hys] at h
        simp only [Bind.bind, Except.bind, Pure.pure, Except.pure] at h
        injection h with h
        rw [← h, List.length_cons, List.length_cons, ih ys hys]

theorem dictInsert_ne_nil (d : List (String × List String)) (k : String)
    (v : List String) : dictInsert d k v ≠ [] := by
  unfold dictInsert
  split
  · rename_i hany
    cases d with
    | nil => simp at hany
    | cons p ps => simp
  · simp

/-- The replacement map and the replaceable-word list are empty together. -/
theorem buildReplacementMap_empty_iff (W : WordNet) (E : List String → List String)
    (style : String) (tagged : List (String × String)) :
    ((buildReplacementMap W E style tagged).1 = [] ↔
      (buildReplacementMap W E style tagged).2 = []) := by
  unfold buildReplacementMap
  refine foldl_preserve
    (fun acc : List (String × List String) × List (Nat × String × String) =>
      (acc.1 = [] ↔ acc.2 = [])) _ tagged.enum ([], []) (by simp) ?_
  intro acc p h
  split
  · split
    · constructor
      · intro hc; exact absurd hc (dictInsert_ne_nil _ _ _)
      · intro hc; simp at hc
    · exact h
  · exact h

theorem runGeneration_invariant (P : GenState → Prop) (O : Oracle) (anti : Bool)
    (n : Nat) (original : String) (tokens : List String)
    (tagged : List (String × String)) (wr : List (String × List String))
    (rw : List (Nat × String × String))
    (hinit : P (initialState O anti original tokens tagged wr rw).1)
    (hstep : ∀ st i, P st → P (generationStep O anti n original tokens wr rw st i)) :
    P (runGeneration O anti n original tokens tagged wr rw).1 := by
  unfold runGeneration
  exact foldl_preserve P _ _ _ hinit hstep

/-- Every step of the generation loop either leaves the state unchanged or
appends one variation that passed all the acceptance checks. -/
theorem generationStep_cases (O : Oracle) (anti : Bool) (n : Nat)
    (original : String) (tokens : List String)
    (wr : List (String × List String)) (rw : List (Nat × String × String))
    (st : GenState) (i : Nat) :
    generationStep O anti n original tokens wr rw st i = st ∨
    ∃ v, generationStep O anti n original tokens wr rw st i =
        ⟨st.variations ++ [v], insert (pyLower v) st.seen⟩ ∧
      pyLower v ≠ pyLower original ∧ pyLower v ∉ st.seen ∧
      (anti = true → antiGateOk tokens v = true) := by
  unfold generationStep
  split_ifs with h1 h2 h3 h4
  · exact Or.inl rfl
  · exact Or.inl rfl
  · exact Or.inl rfl
  · refine Or.inr ⟨_, rfl, h4.1, h4.2.1, fun hanti => ?_⟩
    by_contra hng
    exact h3 ⟨hanti, hng⟩
  · exact Or.inl rfl

theorem create_turnitin_ne_original (O : Oracle) (original : String)
    (tokens : List String) (tagged : List (String × String))
    (wr : List (String × List String)) (rw : List (Nat × String × String))
    (s : String)
    (h : create_turnitin_proof_paraphrase O original tokens tagged wr rw = some s) :
    pyLower s ≠ pyLower original := by
  unfold create_turnitin_proof_paraphrase at h
  split at h
  · simp at h
  · exact (turnitinGate_spec _ _ _ _ h).2.1

theorem create_turnitin_word_rate (O : Oracle) (original : String)
    (tokens : List String) (tagged : List (String × String))
    (wr : List (String × List String)) (rw : List (Nat × String × String))
    (s : String)
    (h : create_turnitin_proof_paraphrase O original tokens tagged wr rw = some s) :
    wordChangeRate tokens s ≥ 70/100 := by
  unfold create_turnitin_proof_paraphrase at h
  split at h
  · simp at h
  · rcases (turnitinGate_spec _ _ _ _ h).2.2 with hmain | hfb
    · exact hmain.1
    · linarith

theorem wordChangeRate_of_empty (tokens : List String) (v : String)
    (h : alnumWordsOf tokens = ∅) : wordChangeRate tokens v = 1 := by
  unfold wordChangeRate
  rw [h]
  simp

theorem antiGateOk_rate (tokens : List String) (v : String)
    (h : antiGateOk tokens v = true) : wordChangeRate tokens v ≥ 70/100 := by
  unfold antiGateOk at h
  split at h
  · rename_i hempty
    rw [wordChangeRate_of_empty tokens v hempty]
    norm_num
  · split at h
    · simp at h
    · rename_i hrate
      linarith [not_lt.mp hrate]

theorem forceFallback_shape (O : Oracle) (original : String)
    (tokens : List String) (wr : List (String × List String))
    (rw : List (Nat × String × String)) :
    forceFallback O original tokens wr rw = [] ∨
    ∃ v, forceFallback O original tokens wr rw = [v] ∧
      pyLower v ≠ pyLower original := by
  unfold forceFallback
  rcases rw with _ | ⟨⟨idx, word, pos⟩, rest⟩
  · exact Or.inl rfl
  · dsimp only
    rcases h : dictFind? wr (pyLower word) with _ | ⟨_ | ⟨r0, rs⟩⟩
    · exact Or.inl rfl
    · exact Or.inl rfl
    · dsimp only
      by_cases hne : pyLower (O.fixPunct2 (joinSpace
          (tokens.set idx (forcedReplacement word r0)))) ≠ pyLower original
      · rw [if_pos hne]
        exact Or.inr ⟨_, rfl, hne⟩
      · rw [if_neg hne]
        exact Or.inl rfl

theorem postGenVariations_cases (O : Oracle) (original : String)
    (tokens : List String) (wr : List (String × List String))
    (rw : List (Nat × String × String)) (genVars : List String) :
    postGenVariations O original tokens wr rw genVars = genVars ∨
    postGenVariations O original tokens wr rw genVars =
      forceFallback O original tokens wr rw ∨
    postGenVariations O original tokens wr rw genVars = [original] := by
  unfold postGenVariations
  split_ifs with h1 h2 h3 <;>
    first
      | exact Or.inl rfl
      | exact Or.inr (Or.inl rfl)
      | exact Or.inr (Or.inr rfl)

theorem postGenVariations_ne_nil (O : Oracle) (original : String)
    (tokens : List String) (wr : List (String × List String))
    (rw : List (Nat × String × String)) (genVars : List String) :
    postGenVariations O original tokens wr rw genVars ≠ [] := by
  unfold postGenVariations
  split_ifs with h1 h2 h3 <;> simp_all [List.isEmpty_iff]

theorem applyLengthFilter_sublist (lp : String) (n : Nat) (original : String)
    (v : List String) : (applyLengthFilter lp n original v).Sublist v := by
  unfold applyLengthFilter
  split
  · split
    · exact (List.take_sublist _ _).trans (List.filter_sublist _)
    · exact List.Sublist.refl v
  · exact List.Sublist.refl v

theorem applyLengthFilter_ne_nil (lp : String) (n : Nat) (original : String)
    (v : List String) (hn : 1 ≤ n) (hv : v ≠ []) :
    applyLengthFilter lp n original v ≠ [] := by
  unfold applyLengthFilter
  split
  · split
    · rename_i hf
      have hlen : (v.filter (lengthBandPred lp original)).length ≠ 0 := by
        intro hz
        rw [List.length_eq_zero] at hz
        rw [hz] at hf
        simp at hf
      intro hc
      have := congrArg List.length hc
      simp only [List.length_take, List.length_nil] at this
      omega
    · exact hv
  · exact hv

/-- Inversion of a successful run of the orchestrator's `try` body. -/
theorem paraphraseCore_ok_inv (O : Oracle) (W : WordNet) (n : Nat)
    (style lp : String) (anti : Bool) (original : String) (r : ParaphraseResult)
    (h : paraphraseCore O W n style lp anti original = .ok r) :
    (∃ tokens tagged,
      O.tokenize original = .ok tokens ∧ O.posTag tokens = .ok tagged ∧
      ((buildReplacementMap W O.setEnum style tagged).1.isEmpty ∨
        (buildReplacementMap W O.setEnum style tagged).2.isEmpty) ∧
      r = fallbackResult original style lp anti) ∨
    (∃ tokens tagged vtoks,
      O.tokenize original = .ok tokens ∧ O.posTag tokens = .ok tagged ∧
      ¬ ((buildReplacementMap W O.setEnum style tagged).1.isEmpty ∨
        (buildReplacementMap W O.setEnum style tagged).2.isEmpty) ∧
      (candidateList O W anti n style lp original tokens tagged).mapM O.tokenize =
        .ok vtoks ∧
      r = assembleResult O W n style lp anti original tokens tagged vtoks) := by
  unfold paraphraseCore at h
  cases htok : O.tokenize original with
  | error e => rw [htok] at h; simp at h
  | ok tokens =>
    rw [htok] at h
    dsimp only at h
    cases htag : O.posTag tokens with
    | error e => rw [htag] at h; simp at h
    | ok tagged =>
      rw [htag] at h
      dsimp only at h
      split at h
      · rename_i hcond
        injection h with h
        exact Or.inl ⟨tokens, tagged, rfl, htag, hcond, h.symm⟩
      · rename_i hcond
        cases hm : (candidateList O W anti n style lp original tokens tagged).mapM
            O.tokenize with
        | error e => rw [hm] at h; simp at h
        | ok vtoks =>
          rw [hm] at h
          injection h with h
          exact Or.inr ⟨tokens, tagged, vtoks, rfl, htag, hcond, hm, h.symm⟩

/-- C4: `paraphrase_sentence` never propagates an internal failure (the
model is total; every raised exception is an `.error` of the `try`-body),
and on any failure of tokenization/tagging/scoring — and likewise when no
replaceable word yields synonyms — it returns a well-formed result whose
variation list is exactly the original and whose best score is 0. -/
theorem paraphrase_sentence_error_handling (O : Oracle) (W : WordNet)
    (sentence : String) (n : Nat) (style lp : String) (anti : Bool)
    (h0 : pyStrip sentence ≠ "") :
    (∀ e, paraphraseCore O W n style lp anti (pyStrip sentence) = .error e →
      (paraphrase_sentence O W sentence n style lp anti).variations =
          [pyStrip sentence] ∧
        (paraphrase_sentence O W sentence n style lp anti).best_score = 0) ∧
    (∀ tokens tagged, O.tokenize (pyStrip sentence) = .ok tokens →
      O.posTag tokens = .ok tagged →
      (buildReplacementMap W O.setEnum style tagged).2 = [] →
      (paraphrase_sentence O W sentence n style lp anti).variations =
          [pyStrip sentence] ∧
        (paraphrase_sentence O W sentence n style lp anti).best_score = 0) := by
  constructor
  · intro e he
    unfold paraphrase_sentence
    rw [if_neg h0, he]
    exact ⟨rfl, rfl⟩
  · intro tokens tagged htok htag hrw
    have hcore : paraphraseCore O W n style lp anti (pyStrip sentence) =
        .ok (fallbackResult (pyStrip sentence) style lp anti) := by
      unfold paraphraseCore
      rw [htok]
      dsimp only
      rw [htag]
      dsimp only
      rw [if_pos (Or.inr (by rw [hrw]; rfl))]
    unfold paraphrase_sentence
    rw [if_neg h0, hcore]
    exact ⟨rfl, rfl⟩

/-- An oracle whose tokenizer always fails. -/
def oracleErrTok : Oracle :=
  { tokenize := fun _ => .error "tokenize failed"
    posTag := fun _ => .error "tag failed"
    setEnum := id
    tpUniform := 0
    tpSample := fun p _ => p
    tpChoice := fun _ => 0
    transform := id
    loopUniform := fun _ => 0
    loopRandint := fun _ => 1
    loopSample := fun _ p _ => p
    loopChoice := fun _ _ => 0
    fixPunct := id
    fixPunct2 := id }

/-- An oracle that tokenizes on whitespace and tags every token "XX"
(which is never eligible for replacement). -/
def oracleNoSyn : Oracle :=
  { tokenize := fun s => .ok (pySplit s)
    posTag := fun ts => .ok (ts.map (fun t => (t, "XX")))
    setEnum := id
    tpUniform := 0
    tpSample := fun p _ => p
    tpChoice := fun _ => 0
    transform := id
    loopUniform := fun _ => 0
    loopRandint := fun _ => 1
    loopSample := fun _ p _ => p
    loopChoice := fun _ _ => 0
    fixPunct := id
    fixPunct2 := id }

/-- C4 witness: the degradation theorem applied to a failing tokenizer and
to a sentence with no eligible words. -/
theorem paraphrase_sentence_error_handling_witness :
    ((paraphrase_sentence oracleErrTok trivialWordNet "cats hunt" 5 "balanced"
        "same" false).variations = ["cats hunt"] ∧
      (paraphrase_sentence oracleErrTok trivialWordNet "cats hunt" 5 "balanced"
        "same" false).best_score = 0) ∧
    ((paraphrase_sentence oracleNoSyn trivialWordNet "cats hunt" 5 "balanced"
        "same" false).variations = ["cats hunt"] ∧
      (paraphrase_sentence oracleNoSyn trivialWordNet "cats hunt" 5 "balanced"
        "same" false).best_score = 0) :=
  ⟨(paraphrase_sentence_error_handling oracleErrTok trivialWordNet "cats hunt" 5
      "balanced" "same" false (by decide)).1 "tokenize failed" rfl,
   (paraphrase_sentence_error_handling oracleNoSyn trivialWordNet "cats hunt" 5
      "balanced" "same" false (by decide)).2 (pySplit "cats hunt")
     ((pySplit "cats hunt").map (fun t => (t, "XX"))) rfl rfl (by decide)⟩

/-- C10 witness: the permutation theorem applied to a concrete short token
list (where the rearranger is the identity). -/
theorem rearrange_sentence_structure_perm_witness :
    (rearrange_sentence_structure ["a", "b", "c"]
        [("a", "JJ"), ("b", "NN"), ("c", "RB")]).Perm ["a", "b", "c"] ∧
      rearrange_sentence_structure ["a", "b", "c"]
        [("a", "JJ"), ("b", "NN"), ("c", "RB")] = ["a", "b", "c"] :=
  ⟨(rearrange_sentence_structure_perm ["a", "b", "c"]
      [("a", "JJ"), ("b", "NN"), ("c", "RB")]).1,
   (rearrange_sentence_structure_perm ["a", "b", "c"]
      [("a", "JJ"), ("b", "NN"), ("c", "RB")]).2 (by decide)⟩

/-! ## Properties of the scoring/ranking stage -/

theorem scoredSorted_snd_perm (W : WordNet) (original : String)
    (tokens : List String) (wr : List (String × List String))
    (tagged : List (String × String)) (post : List String)
    (vtoks : List (List String)) (hlen : vtoks.length = post.length) :
    ((scoredSorted W original tokens wr tagged post vtoks).map
      (fun s => s.2)).Perm post := by
  unfold scoredSorted
  have h1 := (List.mergeSort_perm ((post.zip vtoks).map (fun p =>
    (calculate_variation_score W original p.1 tokens p.2 wr tagged, p.1)))
    (fun a b => decide (b.1 ≤ a.1))).map (fun s : ℚ × String => s.2)
  have h2 : ((post.zip vtoks).map (fun p =>
      (calculate_variation_score W original p.1 tokens p.2 wr tagged, p.1))).map
        (fun s : ℚ × String => s.2) = (post.zip vtoks).map (fun p => p.1) := by
    rw [List.map_map]
    rfl
  have h3 : (post.zip vtoks).map (fun p => p.1) = post := by
    have := List.map_fst_zip post vtoks (by omega)
    simpa using this
  rw [h2, h3] at h1
  exact h1

theorem ranked_subset (W : WordNet) (original : String) (tokens : List String)
    (wr : List (String × List String)) (tagged : List (String × String))
    (post : List String) (vtoks : List (List String)) (n : Nat) (v : String)
    (hv : v ∈ ((scoredSorted W original tokens wr tagged post vtoks).take n).map
      (fun s => s.2)) : v ∈ post := by
  rcases List.mem_map.mp hv with ⟨p, hp, hpv⟩
  have h1 : p ∈ scoredSorted W original tokens wr tagged post vtoks :=
    (List.take_sublist _ _).mem hp
  unfold scoredSorted at h1
  rw [List.mem_mergeSort] at h1
  rcases List.mem_map.mp h1 with ⟨q, hq, hqp⟩
  have h2 : q.1 ∈ post := (List.of_mem_zip hq).1
  rw [← hpv, ← hqp]
  exact h2

theorem ranked_nodup (W : WordNet) (original : String) (tokens : List String)
    (wr : List (String × List String)) (tagged : List (String × String))
    (post : List String) (vtoks : List (List String)) (n : Nat)
    (hlen : vtoks.length = post.length) (hnd : (post.map pyLower).Nodup) :
    ((((scoredSorted W original tokens wr tagged post vtoks).take n).map
      (fun s => s.2)).map pyLower).Nodup := by
  have hperm := (scoredSorted_snd_perm W original tokens wr tagged post vtoks
    hlen).map pyLower
  have hnd2 : (((scoredSorted W original tokens wr tagged post vtoks).map
      (fun s => s.2)).map pyLower).Nodup := (hperm.nodup_iff).mpr hnd
  have hsub : ((((scoredSorted W original tokens wr tagged post vtoks).take n).map
      (fun s => s.2)).map pyLower).Sublist
      ((((scoredSorted W original tokens wr tagged post vtoks)).map
        (fun s => s.2)).map pyLower) :=
    ((List.take_sublist _ _).map (fun s : ℚ × String => s.2)).map pyLower
  exact hnd2.sublist hsub

theorem ranked_ne_nil (W : WordNet) (original : String) (tokens : List String)
    (wr : List (String × List String)) (tagged : List (String × String))
    (post : List String) (vtoks : List (List String)) (n : Nat)
    (hn : 1 ≤ n) (hpost : post ≠ []) (hlen : vtoks.length = post.length) :
    (((scoredSorted W original tokens wr tagged post vtoks).take n).map
      (fun s => s.2)) ≠ [] := by
  have hzip : (post.zip vtoks).length = post.length := by
    rw [List.length_zip]
    omega
  have hsorted : (scoredSorted W original tokens wr tagged post vtoks).length =
      post.length := by
    unfold scoredSorted
    rw [(List.mergeSort_perm _ _).length_eq, List.length_map, hzip]
  intro hc
  have := congrArg List.length hc
  simp only [List.length_map, List.length_take, List.length_nil, hsorted] at this
  have hp : 0 < post.length := List.length_pos.mpr hpost
  omega

theorem ranked_singleton (W : WordNet) (original : String) (tokens : List String)
    (wr : List (String × List String)) (tagged : List (String × String))
    (x : String) (vtoks : List (List String)) (n : Nat) (hn : 1 ≤ n)
    (hlen : vtoks.length = 1) :
    (((scoredSorted W original tokens wr tagged [x] vtoks).take n).map
      (fun s => s.2)) = [x] := by
  rcases vtoks with _ | ⟨y, _ | ⟨z, rest⟩⟩
  · simp at hlen
  · have hperm : (scoredSorted W original tokens wr tagged [x] [y]).Perm
        [(calculate_variation_score W original x tokens y wr tagged, x)] := by
      unfold scoredSorted
      exact List.mergeSort_perm _ _
    have heq := List.perm_singleton.mp hperm
    rw [heq]
    cases n with
    | zero => omega
    | succ m => simp
  · simp at hlen

/-! ## Loop invariants -/

/-- The case-insensitive-distinctness invariant of the generation loop. -/
def CandInv (original : String) (st : GenState) : Prop :=
  (st.variations.map pyLower).Nodup ∧
  (∀ v ∈ st.variations, pyLower v ∈ st.seen) ∧
  (∀ v ∈ st.variations, pyLower v ≠ pyLower original)

theorem initialState_candInv (O : Oracle) (anti : Bool) (original : String)
    (tokens : List String) (tagged : List (String × String))
    (wr : List (String × List String)) (rw : List (Nat × String × String)) :
    CandInv original (initialState O anti original tokens tagged wr rw).1 := by
  unfold initialState
  split
  · rename_i hanti
    cases htp : create_turnitin_proof_paraphrase O original tokens tagged wr rw with
    | none => exact ⟨by simp, by simp, by simp⟩
    | some tp =>
      dsimp only
      split
      · refine ⟨by simp, ?_, ?_⟩
        · intro v hv
          simp at hv
          subst hv
          simp
        · intro v hv
          simp at hv
          subst hv
          exact create_turnitin_ne_original O original tokens tagged wr rw _ htp
      · exact ⟨by simp, by simp, by simp⟩
  · exact ⟨by simp, by simp, by simp⟩

theorem generationStep_candInv (O : Oracle) (anti : Bool) (n : Nat)
    (original : String) (tokens : List String)
    (wr : List (String × List String)) (rw : List (Nat × String × String))
    (st : GenState) (i : Nat) (h : CandInv original st) :
    CandInv original (generationStep O anti n original tokens wr rw st i) := by
  rcases generationStep_cases O anti n original tokens wr rw st i with
    heq | ⟨v, heq, hne, hnotin, _⟩
  · rw [heq]; exact h
  · rw [heq]
    obtain ⟨hnd, hmem, hneo⟩ := h
    refine ⟨?_, ?_, ?_⟩
    · rw [List.map_append, List.nodup_append]
      refine ⟨hnd, by simp, ?_⟩
      intro a ha hb
      simp only [List.map_cons, List.map_nil, List.mem_singleton] at hb
      subst hb
      rcases List.mem_map.mp ha with ⟨w, hw, hwl⟩
      exact hnotin (hwl ▸ hmem w hw)
    · intro w hw
      rcases List.mem_append.mp hw with h1 | h1
      · exact Finset.mem_insert_of_mem (hmem w h1)
      · simp only [List.mem_singleton] at h1
        subst h1
        exact Finset.mem_insert_self _ _
    · intro w hw
      rcases List.mem_append.mp hw with h1 | h1
      · exact hneo w h1
      · simp only [List.mem_singleton] at h1
        subst h1
        exact hne

theorem runGeneration_candInv (O : Oracle) (anti : Bool) (n : Nat)
    (original : String) (tokens : List String)
    (tagged : List (String × String)) (wr : List (String × List String))
    (rw : List (Nat × String × String)) :
    CandInv original (runGeneration O anti n original tokens tagged wr rw).1 :=
  runGeneration_invariant (CandInv original) O anti n original tokens tagged wr rw
    (initialState_candInv O anti original tokens tagged wr rw)
    (fun st i h => generationStep_candInv O anti n original tokens wr rw st i h)

theorem sublist_singleton_ne (l : List String) (a : String) (h : l.Sublist [a])
    (hne : l ≠ []) : l = [a] := by
  cases l with
  | nil => exact absurd rfl hne
  | cons x xs =>
    have hx : x ∈ [a] := h.mem (by simp)
    simp only [List.mem_singleton] at hx
    subst hx
    have hlen := h.length_le
    simp only [List.length_cons, List.length_nil] at hlen
    have hxs : xs = [] := by
      have hx0 : xs.length = 0 := by omega
      exact List.eq_nil_of_length_eq_zero hx0
    rw [hxs]

/-- The pre-filter variation list is either the bare original (the
documented fallback) or a case-insensitively distinct list of strings all
differing from the original. -/
theorem preVariations_cases (O : Oracle) (anti : Bool) (n : Nat)
    (original : String) (tokens : List String) (tagged : List (String × String))
    (wr : List (String × List String)) (rw : List (Nat × String × String)) :
    postGenVariations O original tokens wr rw
        (runGeneration O anti n original tokens tagged wr rw).1.variations =
      [original] ∨
    (((postGenVariations O original tokens wr rw
        (runGeneration O anti n original tokens tagged wr rw).1.variations).map
          pyLower).Nodup ∧
      ∀ v ∈ postGenVariations O original tokens wr rw
          (runGeneration O anti n original tokens tagged wr rw).1.variations,
        pyLower v ≠ pyLower original) := by
  rcases postGenVariations_cases O original tokens wr rw
      (runGeneration O anti n original tokens tagged wr rw).1.variations with
    hcase | hcase | hcase
  · obtain ⟨hnd, _, hneq⟩ := runGeneration_candInv O anti n original tokens tagged wr rw
    rw [hcase]
    exact Or.inr ⟨hnd, hneq⟩
  · rcases forceFallback_shape O original tokens wr rw with hff | ⟨v, hff, hffne⟩
    · have := postGenVariations_ne_nil O original tokens wr rw
        (runGeneration O anti n original tokens tagged wr rw).1.variations
      rw [hcase, hff] at this
      exact absurd rfl this
    · rw [hcase, hff]
      refine Or.inr ⟨by simp, ?_⟩
      intro w hw
      simp only [List.mem_singleton] at hw
      subst hw
      exact hffne
  · rw [hcase]
    exact Or.inl rfl

/-- C5 (amended): for every oracle and lexical adapter, every non-empty
input, style, length preference and mode, provided the requested variation
count is at least 1, the returned variation list is non-empty and pairwise
distinct case-insensitively, and either it is exactly the original as sole
variant (the documented fallback) or every entry differs case-insensitively
from the original. -/
theorem paraphrase_sentence_variations_distinct (O : Oracle) (W : WordNet)
    (sentence : String) (n : Nat) (style lp : String) (anti : Bool)
    (hn : 1 ≤ n) (h0 : pyStrip sentence ≠ "") :
    (paraphrase_sentence O W sentence n style lp anti).variations ≠ [] ∧
    ((paraphrase_sentence O W sentence n style lp anti).variations.map
      pyLower).Nodup ∧
    ((paraphrase_sentence O W sentence n style lp anti).variations =
        [(paraphrase_sentence O W sentence n style lp anti).original] ∨
      ∀ v ∈ (paraphrase_sentence O W sentence n style lp anti).variations,
        pyLower v ≠ pyLower (paraphrase_sentence O W sentence n style lp anti).original) := by
  unfold paraphrase_sentence
  rw [if_neg h0]
  cases hcore : paraphraseCore O W n style lp anti (pyStrip sentence) with
  | error e =>
    exact ⟨by simp [fallbackResult], by simp [fallbackResult], Or.inl rfl⟩
  | ok r =>
    dsimp only
    rcases paraphraseCore_ok_inv O W n style lp anti (pyStrip sentence) r hcore with
      ⟨tokens, tagged, _, _, _, hr⟩ | ⟨tokens, tagged, vtoks, htok, htag, hne2, hm, hr⟩
    · subst hr
      exact ⟨by simp [fallbackResult], by simp [fallbackResult], Or.inl rfl⟩
    · subst hr
      have hvar : (assembleResult O W n style lp anti (pyStrip sentence) tokens
          tagged vtoks).variations =
          ((scoredSorted W (pyStrip sentence) tokens
            (buildReplacementMap W O.setEnum style tagged).1 tagged
            (candidateList O W anti n style lp (pyStrip sentence) tokens tagged)
            vtoks).take n).map (fun s => s.2) := rfl
      have horig : (assembleResult O W n style lp anti (pyStrip sentence) tokens
          tagged vtoks).original = pyStrip sentence := rfl
      have hpre_ne : postGenVariations O (pyStrip sentence) tokens
          (buildReplacementMap W O.setEnum style tagged).1
          (buildReplacementMap W O.setEnum style tagged).2
          (runGeneration O anti n (pyStrip sentence) tokens tagged
            (buildReplacementMap W O.setEnum style tagged).1
            (buildReplacementMap W O.setEnum style tagged).2).1.variations ≠ [] :=
        postGenVariations_ne_nil _ _ _ _ _ _
      have hpost_sub : (candidateList O W anti n style lp (pyStrip sentence) tokens
          tagged).Sublist
          (postGenVariations O (pyStrip sentence) tokens
            (buildReplacementMap W O.setEnum style tagged).1
            (buildReplacementMap W O.setEnum style tagged).2
            (runGeneration O anti n (pyStrip sentence) tokens tagged
              (buildReplacementMap W O.setEnum style tagged).1
              (buildReplacementMap W O.setEnum style tagged).2).1.variations) := by
        unfold candidateList
        exact applyLengthFilter_sublist _ _ _ _
      have hpost_ne : candidateList O W anti n style lp (pyStrip sentence) tokens
          tagged ≠ [] := by
        unfold candidateList
        exact applyLengthFilter_ne_nil _ _ _ _ hn hpre_ne
      have hlen : vtoks.length = (candidateList O W anti n style lp
          (pyStrip sentence) tokens tagged).length :=
        mapM_ok_length _ _ _ hm
      rw [hvar, horig]
      rcases preVariations_cases O anti n (pyStrip sentence) tokens tagged
          (buildReplacementMap W O.setEnum style tagged).1
          (buildReplacementMap W O.setEnum style tagged).2 with hpre1 | ⟨hndpre, hneqpre⟩
      · have hpost_eq : candidateList O W anti n style lp (pyStrip sentence) tokens
            tagged = [pyStrip sentence] := by
          refine sublist_singleton_ne _ _ ?_ hpost_ne
          rw [← hpre1]
          exact hpost_sub
        have hlen1 : vtoks.length = 1 := by
          rw [hlen, hpost_eq]
          rfl
        have hranked : ((scoredSorted W (pyStrip sentence) tokens
            (buildReplacementMap W O.setEnum style tagged).1 tagged
            (candidateList O W anti n style lp (pyStrip sentence) tokens tagged)
            vtoks).take n).map (fun s => s.2) = [pyStrip sentence] := by
          rw [hpost_eq]
          exact ranked_singleton W (pyStrip sentence) tokens _ tagged
            (pyStrip sentence) vtoks n hn (by rw [hlen1])
        rw [hranked]
        exact ⟨by simp, by simp, Or.inl rfl⟩
      · refine ⟨?_, ?_, Or.inr ?_⟩
        · exact ranked_ne_nil W (pyStrip sentence) tokens _ tagged _ vtoks n hn
            hpost_ne hlen
        · refine ranked_nodup W (pyStrip sentence) tokens _ tagged _ vtoks n hlen ?_
          exact hndpre.sublist (hpost_sub.map pyLower)
        · intro v hv
          have hvp := ranked_subset W (pyStrip sentence) tokens _ tagged _ vtoks n v hv
          exact hneqpre v (hpost_sub.mem hvp)

/-- C5 witness: the amended theorem applied at a concrete input with one
eligible word and one requested variation. -/
theorem paraphrase_sentence_variations_distinct_witness :
    (paraphrase_sentence oracleNoSyn trivialWordNet "cats hunt" 1 "balanced"
      "same" false).variations ≠ [] ∧
    ((paraphrase_sentence oracleNoSyn trivialWordNet "cats hunt" 1 "balanced"
      "same" false).variations.map pyLower).Nodup ∧
    ((paraphrase_sentence oracleNoSyn trivialWordNet "cats hunt" 1 "balanced"
        "same" false).variations =
      [(paraphrase_sentence oracleNoSyn trivialWordNet "cats hunt" 1 "balanced"
        "same" false).original] ∨
      ∀ v ∈ (paraphrase_sentence oracleNoSyn trivialWordNet "cats hunt" 1
          "balanced" "same" false).variations,
        pyLower v ≠ pyLower (paraphrase_sentence oracleNoSyn trivialWordNet
          "cats hunt" 1 "balanced" "same" false).original) :=
  paraphrase_sentence_variations_distinct oracleNoSyn trivialWordNet "cats hunt" 1
    "balanced" "same" false (by decide) (by decide)

/-- A lexicon in which "cats" has the single synonym "felines" and no other
word has any sense group. -/
def wordNetC5 : WordNet :=
  { synsetsOf := fun w _ => if w = "cats" then [1] else []
    hypernymsOf := fun _ => []
    hyponymsOf := fun _ => []
    lemmasOf := fun s => if s = 1 then ["felines"] else [] }

/-- C5 counterexample: with `num_variations = 0` (which the web layer does
not clamp) the variations list comes back empty even though the input is
non-empty and has an eligible word with a synonym, refuting the unqualified
non-emptiness claim. -/
theorem paraphrase_sentence_zero_variations_counterexample :
    (paraphrase_sentence oracleC1 wordNetC5 "cats hunt" 0 "balanced" "same"
      false).variations = [] ∧
    pyStrip "cats hunt" ≠ "" ∧
    (buildReplacementMap wordNetC5 oracleC1.setEnum "balanced"
      [("cats", "NN"), ("hunt", "NN")]).2 ≠ [] := by
  refine ⟨?_, by decide, by decide⟩
  decide

theorem runGeneration_rateInv (O : Oracle) (n : Nat) (original : String)
    (tokens : List String) (tagged : List (String × String))
    (wr : List (String × List String)) (rw : List (Nat × String × String)) :
    ∀ v ∈ (runGeneration O true n original tokens tagged wr rw).1.variations,
      70/100 ≤ wordChangeRate tokens v := by
  refine runGeneration_invariant
    (fun st => ∀ v ∈ st.variations, 70/100 ≤ wordChangeRate tokens v)
    O true n original tokens tagged wr rw ?_ ?_
  · unfold initialState
    split
    · cases htp : create_turnitin_proof_paraphrase O original tokens tagged wr rw with
      | none => simp
      | some tp =>
        dsimp only
        split
        · intro v hv
          simp only [List.mem_singleton] at hv
          subst hv
          exact create_turnitin_word_rate O original tokens tagged wr rw _ htp
        · simp
    · simp
  · intro st i hP
    rcases generationStep_cases O true n original tokens wr rw st i with
      h | ⟨v, h, hne, hseen, hgate⟩
    · rw [h]; exact hP
    · rw [h]
      intro w hw
      rcases List.mem_append.mp hw with hw | hw
      · exact hP w hw
      · simp only [List.mem_singleton] at hw
        subst hw
        exact antiGateOk_rate tokens w (hgate rfl)

/-- C2 (amended): with anti-detection on, every returned variation either
has a word-level change rate of at least 0.70 against the original, or is
exactly the (stripped) original, or comes from the forced single-replacement
fallback of lines 842–856 — which the unamended claim overlooks: that
fallback is not gated on any divergence threshold, so aggressive mode can
return a variant that differs from the original yet changes fewer than 70%
of its words. -/
theorem paraphrase_sentence_anti_rate (O : Oracle) (W : WordNet)
    (sentence : String) (n : Nat) (style lp : String)
    (tokens : List String) (tagged : List (String × String))
    (htok : O.tokenize (pyStrip sentence) = .ok tokens)
    (htag : O.posTag tokens = .ok tagged) :
    ∀ v ∈ (paraphrase_sentence O W sentence n style lp true).variations,
      70/100 ≤ wordChangeRate tokens v ∨ v = pyStrip sentence ∨
      v ∈ forceFallback O (pyStrip sentence) tokens
        (buildReplacementMap W O.setEnum style tagged).1
        (buildReplacementMap W O.setEnum style tagged).2 := by
  intro v hv
  unfold paraphrase_sentence at hv
  by_cases h0 : pyStrip sentence = ""
  · rw [if_pos h0] at hv
    simp [emptyResult] at hv
  · rw [if_neg h0] at hv
    cases hcore : paraphraseCore O W n style lp true (pyStrip sentence) with
    | error e =>
      rw [hcore] at hv
      dsimp only at hv
      simp only [fallbackResult, List.mem_singleton] at hv
      exact Or.inr (Or.inl hv)
    | ok r =>
      rw [hcore] at hv
      dsimp only at hv
      rcases paraphraseCore_ok_inv O W n style lp true (pyStrip sentence) r hcore with
        ⟨tokens2, tagged2, htok2, htag2, hemp, hr⟩ |
        ⟨tokens2, tagged2, vtoks, htok2, htag2, hne2, hm, hr⟩
      · subst hr
        simp only [fallbackResult, List.mem_singleton] at hv
        exact Or.inr (Or.inl hv)
      · have htokeq : tokens2 = tokens := by
          rw [htok] at htok2
          injection htok2 with h
          exact h.symm
        subst htokeq
        have htageq : tagged2 = tagged := by
          rw [htag] at htag2
          injection htag2 with h
          exact h.symm
        subst htageq
        subst hr
        have hv2 : v ∈ ((scoredSorted W (pyStrip sentence) tokens2
            (buildReplacementMap W O.setEnum style tagged2).1 tagged2
            (candidateList O W true n style lp (pyStrip sentence) tokens2 tagged2)
            vtoks).take n).map (fun s => s.2) := hv
        have hvc := ranked_subset W (pyStrip sentence) tokens2 _ tagged2 _ vtoks n
          v hv2
        have hsub : (candidateList O W true n style lp (pyStrip sentence) tokens2
            tagged2).Sublist
            (postGenVariations O (pyStrip sentence) tokens2
              (buildReplacementMap W O.setEnum style tagged2).1
              (buildReplacementMap W O.setEnum style tagged2).2
              (runGeneration O true n (pyStrip sentence) tokens2 tagged2
                (buildReplacementMap W O.setEnum style tagged2).1
                (buildReplacementMap W O.setEnum style tagged2).2).1.variations) := by
          unfold candidateList
          exact applyLengthFilter_sublist _ _ _ _
        have hvpost := hsub.mem hvc
        rcases postGenVariations_cases O (pyStrip sentence) tokens2
            (buildReplacementMap W O.setEnum style tagged2).1
            (buildReplacementMap W O.setEnum style tagged2).2
            (runGeneration O true n (pyStrip sentence) tokens2 tagged2
              (buildReplacementMap W O.setEnum style tagged2).1
              (buildReplacementMap W O.setEnum style tagged2).2).1.variations with
          hc | hc | hc
        · rw [hc] at hvpost
          exact Or.inl (runGeneration_rateInv O n (pyStrip sentence) tokens2 tagged2
            _ _ v hvpost)
        · rw [hc] at hvpost
          exact Or.inr (Or.inr hvpost)
        · rw [hc] at hvpost
          simp only [List.mem_singleton] at hvpost
          exact Or.inr (Or.inl hvpost)

/-- C2 witness: the amended theorem applied at concrete inputs; the
no-synonym lexicon makes the run degrade to the original as the sole
variant, which the second disjunct covers. -/
theorem paraphrase_sentence_anti_rate_witness :
    70/100 ≤ wordChangeRate ["cats", "hunt"] "cats hunt" ∨
    "cats hunt" = pyStrip "cats hunt" ∨
    "cats hunt" ∈ forceFallback oracleC1 (pyStrip "cats hunt") ["cats", "hunt"]
      (buildReplacementMap trivialWordNet oracleC1.setEnum "balanced"
        [("cats", "NN"), ("hunt", "NN")]).1
      (buildReplacementMap trivialWordNet oracleC1.setEnum "balanced"
        [("cats", "NN"), ("hunt", "NN")]).2 :=
  paraphrase_sentence_anti_rate oracleC1 trivialWordNet "cats hunt" 1 "balanced"
    "same" ["cats", "hunt"] [("cats", "NN"), ("hunt", "NN")] rfl
    rfl "cats hunt" (by decide)

theorem wordChangeRate_eval (tokens : List String) (t : String) (a b : ℕ)
    (ha : (alnumWordsOf tokens ∩ alnumWordsOf (pySplit t)).card = a)
    (hb : (alnumWordsOf tokens).card = b) :
    wordChangeRate tokens t = 1 - (a : ℚ) / b := by
  unfold wordChangeRate
  rw [ha, hb]

theorem turnitinGate_none_of_low_rate (original : String) (tokens : List String)
    (t : String) (h : wordChangeRate tokens t < 70/100) :
    turnitinGate original tokens t = none := by
  unfold turnitinGate
  split_ifs with h1 h2 h3
  · rfl
  · exact absurd h2.1 (by linarith)
  · exact absurd h3.1 (by linarith)
  · rfl

theorem antiGateOk_false_of_low_rate (tokens : List String) (v : String)
    (hne : alnumWordsOf tokens ≠ ∅) (h : wordChangeRate tokens v < 70/100) :
    antiGateOk tokens v = false := by
  unfold antiGateOk
  rw [if_neg hne, if_pos h]

/-- The oracle for the forced-fallback scenario: deterministic sampling that
returns the whole population (ignoring the requested count), first-element
choices, identity regex phases. -/
def oracleC2 : Oracle :=
  { tokenize := fun s => .ok (pySplit s)
    posTag := fun ts => .ok (ts.map (fun t => (t, "NN")))
    setEnum := id
    tpUniform := 9/10
    tpSample := fun p _ => p
    tpChoice := fun _ => 0
    transform := id
    loopUniform := fun _ => 9/10
    loopRandint := fun _ => 1
    loopSample := fun _ p _ => p
    loopChoice := fun _ _ => 0
    fixPunct := id
    fixPunct2 := id }

/-- A lexicon in which only "cats" has a sense group, with the single
usable lemma "felines". -/
def wordNetC2 : WordNet :=
  { synsetsOf := fun w _ => if w = "cats" then [1] else []
    hypernymsOf := fun _ => []
    hyponymsOf := fun _ => []
    lemmasOf := fun s => if s = 1 then ["felines"] else [] }

def tokensC2 : List String := ["cats", "hunt", "mice", "here"]

def taggedC2 : List (String × String) :=
  [("cats", "NN"), ("hunt", "NN"), ("mice", "NN"), ("here", "NN")]

def wrC2 : List (String × List String) := [("cats", ["felines"])]

def rwC2 : List (Nat × String × String) := [(0, "cats", "NN")]

theorem buildReplacementMap_C2 :
    buildReplacementMap wordNetC2 oracleC2.setEnum "balanced" taggedC2 =
      (wrC2, rwC2) := by decide

theorem create_turnitin_C2 :
    create_turnitin_proof_paraphrase oracleC2 "cats hunt mice here" tokensC2
      taggedC2 wrC2 rwC2 = none := by
  unfold create_turnitin_proof_paraphrase
  rw [if_neg (by decide : ¬ (rwC2.length < 1))]
  apply turnitinGate_none_of_low_rate
  rw [wordChangeRate_eval tokensC2 _ 3 4 (by decide) (by decide)]
  norm_num

theorem initialState_C2 :
    initialState oracleC2 true "cats hunt mice here" tokensC2 taggedC2 wrC2 rwC2 =
      (⟨[], ∅⟩, none) := by
  unfold initialState
  rw [if_pos rfl, create_turnitin_C2]

theorem loopCandidate_C2 (i : Nat) :
    loopCandidate oracleC2 true wrC2 tokensC2 rwC2 i =
      "felines hunt mice here" := rfl

theorem loopMade_C2 (i : Nat) :
    loopMade oracleC2 true wrC2 tokensC2 rwC2 i = 1 := rfl

theorem rate_C2 :
    wordChangeRate tokensC2 "felines hunt mice here" < 70/100 := by
  rw [wordChangeRate_eval tokensC2 _ 3 4 (by decide) (by decide)]
  norm_num

theorem generationStep_C2 (i : Nat) :
    generationStep oracleC2 true 1 "cats hunt mice here" tokensC2 wrC2 rwC2
      ⟨[], ∅⟩ i = ⟨[], ∅⟩ := by
  have hgate := antiGateOk_false_of_low_rate tokensC2 "felines hunt mice here"
    (by decide) rate_C2
  unfold generationStep
  rw [loopMade_C2 i, loopCandidate_C2 i, hgate]
  rw [if_neg (by decide), if_neg (by decide), if_pos (by decide)]

theorem runGeneration_C2 :
    (runGeneration oracleC2 true 1 "cats hunt mice here" tokensC2 taggedC2 wrC2
      rwC2).1 = ⟨[], ∅⟩ := by
  unfold runGeneration
  dsimp only
  rw [initialState_C2]
  have hfold : ∀ l : List Nat,
      l.foldl (generationStep oracleC2 true 1 "cats hunt mice here" tokensC2
        wrC2 rwC2) ⟨[], ∅⟩ = ⟨[], ∅⟩ := by
    intro l
    induction l with
    | nil => rfl
    | cons x xs ih =>
      rw [List.foldl_cons, generationStep_C2 x]
      exact ih
  exact hfold _

theorem candidateList_C2 :
    candidateList oracleC2 wordNetC2 true 1 "balanced" "same"
      "cats hunt mice here" tokensC2 taggedC2 = ["felines hunt mice here"] := by
  unfold candidateList
  rw [buildReplacementMap_C2]
  dsimp only
  rw [runGeneration_C2]
  decide

theorem paraphraseCore_C2 :
    paraphraseCore oracleC2 wordNetC2 1 "balanced" "same" true
      "cats hunt mice here" =
      .ok (assembleResult oracleC2 wordNetC2 1 "balanced" "same" true
        "cats hunt mice here" tokensC2 taggedC2
        [["felines", "hunt", "mice", "here"]]) := by
  unfold paraphraseCore
  rw [show oracleC2.tokenize "cats hunt mice here" = Except.ok tokensC2 from rfl]
  dsimp only
  rw [show oracleC2.posTag tokensC2 = Except.ok taggedC2 from rfl]
  dsimp only
  rw [buildReplacementMap_C2]
  rw [if_neg (by decide)]
  rw [candidateList_C2]
  rw [show (["felines hunt mice here"] : List String).mapM oracleC2.tokenize =
    Except.ok [["felines", "hunt", "mice", "here"]] from rfl]

theorem paraphrase_C2_variations :
    (paraphrase_sentence oracleC2 wordNetC2 "cats hunt mice here" 1 "balanced"
      "same" true).variations = ["felines hunt mice here"] := by
  unfold paraphrase_sentence
  rw [if_neg (by decide : ¬ (pyStrip "cats hunt mice here" = ""))]
  rw [show pyStrip "cats hunt mice here" = "cats hunt mice here" from rfl]
  rw [paraphraseCore_C2]
  dsimp only
  have h1 : (assembleResult oracleC2 wordNetC2 1 "balanced" "same" true
      "cats hunt mice here" tokensC2 taggedC2
      [["felines", "hunt", "mice", "here"]]).variations =
      ((scoredSorted wordNetC2 "cats hunt mice here" tokensC2
        (buildReplacementMap wordNetC2 oracleC2.setEnum "balanced" taggedC2).1
        taggedC2
        (candidateList oracleC2 wordNetC2 true 1 "balanced" "same"
          "cats hunt mice here" tokensC2 taggedC2)
        [["felines", "hunt", "mice", "here"]]).take 1).map (fun s => s.2) := rfl
  rw [h1, candidateList_C2]
  exact ranked_singleton wordNetC2 "cats hunt mice here" tokensC2 _ taggedC2
    "felines hunt mice here" [["felines", "hunt", "mice", "here"]] 1
    (le_refl 1) rfl

/-- C2 counterexample: a concrete aggressive-mode run whose only returned
variation comes from the forced single-replacement fallback; it differs
from the original but changes only 1 of its 4 words (rate 1/4 < 0.70),
refuting the unamended claim. -/
theorem paraphrase_sentence_anti_rate_counterexample :
    "felines hunt mice here" ∈
      (paraphrase_sentence oracleC2 wordNetC2 "cats hunt mice here" 1 "balanced"
        "same" true).variations ∧
    oracleC2.tokenize (pyStrip "cats hunt mice here") = .ok tokensC2 ∧
    wordChangeRate tokensC2 "felines hunt mice here" < 70/100 ∧
    pyLower "felines hunt mice here" ≠ pyLower "cats hunt mice here" := by
  refine ⟨?_, rfl, rate_C2, by decide⟩
  rw [paraphrase_C2_variations]
  simp

/-- The variation list as it stands right before the length-preference
filter: generation-loop output plus the two fallbacks. -/
def preVariations (O : Oracle) (W : WordNet) (anti : Bool) (n : Nat)
    (style original : String) (tokens : List String)
    (tagged : List (String × String)) : List String :=
  postGenVariations O original tokens
    (buildReplacementMap W O.setEnum style tagged).1
    (buildReplacementMap W O.setEnum style tagged).2
    (runGeneration O anti n original tokens tagged
      (buildReplacementMap W O.setEnum style tagged).1
      (buildReplacementMap W O.setEnum style tagged).2).1.variations

/-- C7: with length preference "shorter", when the length filter keeps at
least one variant, at most 2·num_variations variants survive to scoring and
every survivor has character length strictly below 95% of the original's;
when the filter would keep none, the unfiltered list is used instead; and
the returned variations are all survivors (or the degraded
[original] when no replacement map could be built). -/
theorem paraphrase_sentence_shorter_filter (O : Oracle) (W : WordNet)
    (sentence : String) (n : Nat) (style : String) (anti : Bool)
    (tokens : List String) (tagged : List (String × String))
    (htok : O.tokenize (pyStrip sentence) = .ok tokens)
    (htag : O.posTag tokens = .ok tagged) :
    ((preVariations O W anti n style (pyStrip sentence) tokens tagged).filter
        (lengthBandPred "shorter" (pyStrip sentence)) ≠ [] →
      (candidateList O W anti n style "shorter" (pyStrip sentence) tokens
        tagged).length ≤ 2 * n ∧
      ∀ v ∈ candidateList O W anti n style "shorter" (pyStrip sentence) tokens
        tagged, lengthRatioQ (pyStrip sentence) v < 95/100) ∧
    ((preVariations O W anti n style (pyStrip sentence) tokens tagged).filter
        (lengthBandPred "shorter" (pyStrip sentence)) = [] →
      candidateList O W anti n style "shorter" (pyStrip sentence) tokens tagged =
        preVariations O W anti n style (pyStrip sentence) tokens tagged) ∧
    (∀ r, paraphraseCore O W n style "shorter" anti (pyStrip sentence) = .ok r →
      r.variations = [pyStrip sentence] ∨
      ∀ v ∈ r.variations,
        v ∈ candidateList O W anti n style "shorter" (pyStrip sentence) tokens
          tagged) := by
  refine ⟨?_, ?_, ?_⟩
  · intro hf
    have hemp : ¬ ((preVariations O W anti n style (pyStrip sentence) tokens
        tagged).filter (lengthBandPred "shorter" (pyStrip sentence))).isEmpty =
        true := by
      rw [List.isEmpty_iff]
      exact hf
    have hc : candidateList O W anti n style "shorter" (pyStrip sentence) tokens
        tagged = ((preVariations O W anti n style (pyStrip sentence) tokens
          tagged).filter (lengthBandPred "shorter" (pyStrip sentence))).take
          (n * 2) := by
      show applyLengthFilter "shorter" n (pyStrip sentence)
        (preVariations O W anti n style (pyStrip sentence) tokens tagged) = _
      unfold applyLengthFilter
      rw [if_pos (by decide : ("shorter" : String) ≠ "same"), if_pos hemp]
    constructor
    · rw [hc]
      have h1 := List.length_take_le (n * 2)
        ((preVariations O W anti n style (pyStrip sentence) tokens
          tagged).filter (lengthBandPred "shorter" (pyStrip sentence)))
      omega
    · intro v hv
      rw [hc] at hv
      have hv2 := (List.take_sublist _ _).mem hv
      have hpred := (List.mem_filter.mp hv2).2
      unfold lengthBandPred at hpred
      rw [if_pos rfl] at hpred
      exact of_decide_eq_true hpred
  · intro hf
    have hemp : ((preVariations O W anti n style (pyStrip sentence) tokens
        tagged).filter (lengthBandPred "shorter" (pyStrip sentence))).isEmpty =
        true := by
      rw [List.isEmpty_iff]
      exact hf
    show applyLengthFilter "shorter" n (pyStrip sentence)
      (preVariations O W anti n style (pyStrip sentence) tokens tagged) = _
    unfold applyLengthFilter
    rw [if_pos (by decide : ("shorter" : String) ≠ "same"),
      if_neg (fun hcon => hcon hemp)]
  · intro r hr
    rcases paraphraseCore_ok_inv O W n style "shorter" anti (pyStrip sentence) r
        hr with ⟨t2, g2, _, _, _, hreq⟩ |
        ⟨t2, g2, vtoks, htok2, htag2, _, hm, hreq⟩
    · subst hreq
      exact Or.inl rfl
    · have ht : t2 = tokens := by
        rw [htok] at htok2
        injection htok2 with h
        exact h.symm
      subst ht
      have hg : g2 = tagged := by
        rw [htag] at htag2
        injection htag2 with h
        exact h.symm
      subst hg
      subst hreq
      right
      intro v hv
      exact ranked_subset W (pyStrip sentence) t2 _ g2 _ vtoks n v hv

/-- C7 witness: the filter theorem applied at a concrete oracle, lexicon
and sentence. -/
theorem paraphrase_sentence_shorter_filter_witness :
    ((preVariations oracleC2 wordNetC2 false 1 "balanced"
        (pyStrip "cats hunt mice here") tokensC2 taggedC2).filter
        (lengthBandPred "shorter" (pyStrip "cats hunt mice here")) ≠ [] →
      (candidateList oracleC2 wordNetC2 false 1 "balanced" "shorter"
        (pyStrip "cats hunt mice here") tokensC2 taggedC2).length ≤ 2 * 1 ∧
      ∀ v ∈ candidateList oracleC2 wordNetC2 false 1 "balanced" "shorter"
        (pyStrip "cats hunt mice here") tokensC2 taggedC2,
        lengthRatioQ (pyStrip "cats hunt mice here") v < 95/100) ∧
    ((preVariations oracleC2 wordNetC2 false 1 "balanced"
        (pyStrip "cats hunt mice here") tokensC2 taggedC2).filter
        (lengthBandPred "shorter" (pyStrip "cats hunt mice here")) = [] →
      candidateList oracleC2 wordNetC2 false 1 "balanced" "shorter"
        (pyStrip "cats hunt mice here") tokensC2 taggedC2 =
        preVariations oracleC2 wordNetC2 false 1 "balanced"
          (pyStrip "cats hunt mice here") tokensC2 taggedC2) ∧
    (∀ r, paraphraseCore oracleC2 wordNetC2 1 "balanced" "shorter" false
        (pyStrip "cats hunt mice here") = .ok r →
      r.variations = [pyStrip "cats hunt mice here"] ∨
      ∀ v ∈ r.variations,
        v ∈ candidateList oracleC2 wordNetC2 false 1 "balanced" "shorter"
          (pyStrip "cats hunt mice here") tokensC2 taggedC2) :=
  paraphrase_sentence_shorter_filter oracleC2 wordNetC2 "cats hunt mice here" 1
    "balanced" false tokensC2 taggedC2 rfl rfl

theorem ngramChangeRate_eval (tokens : List String) (t : String) (n a b : ℕ)
    (hne : (getNgrams (alnumListOf tokens) n).toFinset ≠ ∅)
    (ha : ((getNgrams (alnumListOf tokens) n).toFinset ∩
      (getNgrams (alnumListOf (pySplit t)) n).toFinset).card = a)
    (hb : (getNgrams (alnumListOf tokens) n).toFinset.card = b) :
    ngramChangeRate tokens t n = 1 - (a : ℚ) / b := by
  unfold ngramChangeRate
  rw [if_pos hne, ha, hb]

theorem postGenVariations_of_ne_nil (O : Oracle) (original : String)
    (tokens : List String) (wr : List (String × List String))
    (rw : List (Nat × String × String)) (genVars : List String)
    (h : genVars ≠ []) :
    postGenVariations O original tokens wr rw genVars = genVars := by
  unfold postGenVariations
  split_ifs with h1 h2 <;> simp_all [List.isEmpty_iff]

/-- The oracle for the displaced-proof scenario: the proof generator
replaces every eligible word with the longer of the last two synonyms,
while the loop replaces the first three words with the shorter one. -/
def oracleC6 : Oracle :=
  { tokenize := fun s => .ok (pySplit s)
    posTag := fun ts => .ok (ts.map (fun t => (t, "NN")))
    setEnum := id
    tpUniform := 9/10
    tpSample := fun p _ => p
    tpChoice := fun _ => 0
    transform := id
    loopUniform := fun _ => 9/10
    loopRandint := fun _ => 1
    loopSample := fun _ p _ => p.take 3
    loopChoice := fun _ _ => 1
    fixPunct := id
    fixPunct2 := id }

/-- A lexicon with six synonyms per word; after the aggressive slicing the
candidates are the last two, one long and one short. -/
def wordNetC6 : WordNet :=
  { synsetsOf := fun w _ =>
      if w = "orange" then [1] else if w = "marble" then [2]
      else if w = "window" then [3] else if w = "planet" then [4] else []
    hypernymsOf := fun _ => []
    hyponymsOf := fun _ => []
    lemmasOf := fun s =>
      if s = 1 then ["umber", "crimson", "scarlet", "maroon", "vermillion", "red"]
      else if s = 2 then ["quartz", "basalt", "gneiss", "schist", "travertine", "ore"]
      else if s = 3 then ["portal", "casing", "screen", "glazing", "fenestella", "gap"]
      else if s = 4 then ["moon", "quasar", "nebula", "comet", "spheroidal", "orb"]
      else [] }

def origC6 : String := "orange marble window planet"

def tokensC6 : List String := ["orange", "marble", "window", "planet"]

def taggedC6 : List (String × String) :=
  [("orange", "NN"), ("marble", "NN"), ("window", "NN"), ("planet", "NN")]

def wrC6 : List (String × List String) :=
  [("orange", ["umber", "crimson", "scarlet", "maroon", "vermillion", "red"]),
   ("marble", ["quartz", "basalt", "gneiss", "schist", "travertine", "ore"]),
   ("window", ["portal", "casing", "screen", "glazing", "fenestella", "gap"]),
   ("planet", ["moon", "quasar", "nebula", "comet", "spheroidal", "orb"])]

def rwC6 : List (Nat × String × String) :=
  [(0, "orange", "NN"), (1, "marble", "NN"), (2, "window", "NN"),
   (3, "planet", "NN")]

theorem buildReplacementMap_C6 :
    buildReplacementMap wordNetC6 oracleC6.setEnum "balanced" taggedC6 =
      (wrC6, rwC6) := by decide

/-- The proof-generator output in the C6 scenario (before the gate). -/
def tpC6 : String :=
  oracleC6.transform (joinSpace (rearrange_sentence_structure
    ((applyReplacements true oracleC6.tpChoice wrC6 tokensC6
      (oracleC6.tpSample rwC6
        (min (max 1 (pyTrunc ((rwC6.length : ℚ) * oracleC6.tpUniform)).toNat)
          rwC6.length))).1) taggedC6))

def candC6 : String := "red ore gap planet"

theorem create_turnitin_C6 :
    create_turnitin_proof_paraphrase oracleC6 origC6 tokensC6 taggedC6 wrC6
      rwC6 = some tpC6 := by
  unfold create_turnitin_proof_paraphrase
  rw [if_neg (by decide : ¬ (rwC6.length < 1))]
  show turnitinGate origC6 tokensC6 tpC6 = some tpC6
  unfold turnitinGate
  rw [if_neg (by decide : ¬ (alnumWordsOf tokensC6 = ∅))]
  rw [if_pos ?hmain]
  case hmain =>
    refine ⟨?_, ?_, ?_, ?_, by decide, by decide⟩
    · rw [wordChangeRate_eval tokensC6 tpC6 0 4 (by decide) (by decide)]
      norm_num
    · rw [ngramChangeRate_eval tokensC6 tpC6 2 0 3 (by decide) (by decide)
        (by decide)]
      norm_num
    · rw [ngramChangeRate_eval tokensC6 tpC6 3 0 2 (by decide) (by decide)
        (by decide)]
      norm_num
    · unfold combinedChangeRate
      rw [wordChangeRate_eval tokensC6 tpC6 0 4 (by decide) (by decide),
        ngramChangeRate_eval tokensC6 tpC6 2 0 3 (by decide) (by decide)
          (by decide),
        ngramChangeRate_eval tokensC6 tpC6 3 0 2 (by decide) (by decide)
          (by decide)]
      norm_num

theorem initialState_C6 :
    initialState oracleC6 true origC6 tokensC6 taggedC6 wrC6 rwC6 =
      (⟨[tpC6], {pyLower tpC6}⟩, some tpC6) := by
  unfold initialState
  rw [if_pos rfl, create_turnitin_C6]
  dsimp only
  rw [if_pos ⟨by decide, Finset.not_mem_empty _⟩]

theorem loopCandidate_C6 (i : Nat) :
    loopCandidate oracleC6 true wrC6 tokensC6 rwC6 i = candC6 := rfl

theorem loopMade_C6 (i : Nat) :
    loopMade oracleC6 true wrC6 tokensC6 rwC6 i = 3 := rfl

theorem antiGateOk_C6 : antiGateOk tokensC6 candC6 = true := by
  unfold antiGateOk
  rw [if_neg (by decide : ¬ (alnumWordsOf tokensC6 = ∅))]
  rw [if_neg ?hrate, if_neg ?hbi]
  case hrate =>
    rw [wordChangeRate_eval tokensC6 candC6 1 4 (by decide) (by decide)]
    norm_num
  case hbi =>
    intro h
    have hb := h.2
    rw [show ((getNgrams (alnumListOf tokensC6) 2).toFinset ∩
        (getNgrams (alnumListOf (pySplit candC6)) 2).toFinset).card = 0 from
      by decide,
      show (getNgrams (alnumListOf tokensC6) 2).toFinset.card = 3 from
      by decide] at hb
    norm_num at hb

theorem generationStep_C6_first (i : Nat) :
    generationStep oracleC6 true 2 origC6 tokensC6 wrC6 rwC6
      ⟨[tpC6], {pyLower tpC6}⟩ i =
      ⟨[tpC6, candC6], insert (pyLower candC6) {pyLower tpC6}⟩ := by
  unfold generationStep
  rw [loopMade_C6 i, loopCandidate_C6 i, antiGateOk_C6]
  rw [if_neg (by decide), if_neg (by decide), if_neg (by decide),
    if_pos ⟨by decide, by decide, by decide⟩]
  rfl

theorem generationStep_C6_full (st : GenState) (i : Nat)
    (h : st.variations.length ≥ 2) :
    generationStep oracleC6 true 2 origC6 tokensC6 wrC6 rwC6 st i = st := by
  unfold generationStep
  rw [if_pos h]

theorem runGeneration_C6 :
    runGeneration oracleC6 true 2 origC6 tokensC6 taggedC6 wrC6 rwC6 =
      (⟨[tpC6, candC6], insert (pyLower candC6) {pyLower tpC6}⟩, some tpC6) := by
  unfold runGeneration
  rw [initialState_C6]
  dsimp only
  rw [show List.range (2 * 5) = 0 :: [1, 2, 3, 4, 5, 6, 7, 8, 9] from by decide]
  rw [List.foldl_cons, generationStep_C6_first 0]
  have hfold : ∀ l : List Nat,
      l.foldl (generationStep oracleC6 true 2 origC6 tokensC6 wrC6 rwC6)
        ⟨[tpC6, candC6], insert (pyLower candC6) {pyLower tpC6}⟩ =
        ⟨[tpC6, candC6], insert (pyLower candC6) {pyLower tpC6}⟩ := by
    intro l
    induction l with
    | nil => rfl
    | cons x xs ih =>
      rw [List.foldl_cons, generationStep_C6_full _ x (by decide)]
      exact ih
  rw [hfold]

theorem lengthBandPred_tp_C6 : lengthBandPred "shorter" origC6 tpC6 = false := by
  unfold lengthBandPred
  rw [if_pos rfl]
  apply decide_eq_false
  unfold lengthRatioQ
  rw [if_pos (by decide : origC6.length > 0)]
  rw [show tpC6.length = 43 from by decide, show origC6.length = 27 from by decide]
  norm_num

theorem lengthBandPred_cand_C6 :
    lengthBandPred "shorter" origC6 candC6 = true := by
  unfold lengthBandPred
  rw [if_pos rfl]
  apply decide_eq_true
  unfold lengthRatioQ
  rw [if_pos (by decide : origC6.length > 0)]
  rw [show candC6.length = 18 from by decide,
    show origC6.length = 27 from by decide]
  norm_num

theorem candidateList_C6 :
    candidateList oracleC6 wordNetC6 true 2 "balanced" "shorter" origC6 tokensC6
      taggedC6 = [candC6] := by
  unfold candidateList
  rw [buildReplacementMap_C6]
  dsimp only
  rw [show (runGeneration oracleC6 true 2 origC6 tokensC6 taggedC6 wrC6
      rwC6).1 = ⟨[tpC6, candC6], insert (pyLower candC6) {pyLower tpC6}⟩ from
    by rw [runGeneration_C6]]
  dsimp only
  rw [postGenVariations_of_ne_nil oracleC6 origC6 tokensC6 wrC6 rwC6 _
    (by decide)]
  unfold applyLengthFilter
  rw [if_pos (by decide : ("shorter" : String) ≠ "same")]
  rw [show ([tpC6, candC6] : List String).filter
      (lengthBandPred "shorter" origC6) = [candC6] from by
    simp [List.filter_cons, lengthBandPred_tp_C6, lengthBandPred_cand_C6]]
  rw [if_pos (by simp)]
  rfl

theorem paraphraseCore_C6 :
    paraphraseCore oracleC6 wordNetC6 2 "balanced" "shorter" true origC6 =
      .ok (assembleResult oracleC6 wordNetC6 2 "balanced" "shorter" true origC6
        tokensC6 taggedC6 [["red", "ore", "gap", "planet"]]) := by
  unfold paraphraseCore
  rw [show oracleC6.tokenize origC6 = Except.ok tokensC6 from rfl]
  dsimp only
  rw [show oracleC6.posTag tokensC6 = Except.ok taggedC6 from rfl]
  dsimp only
  rw [buildReplacementMap_C6]
  rw [if_neg (by decide)]
  rw [candidateList_C6]
  rw [show ([candC6] : List String).mapM oracleC6.tokenize =
    Except.ok [["red", "ore", "gap", "planet"]] from rfl]

theorem paraphrase_C6_variations :
    (paraphrase_sentence oracleC6 wordNetC6 origC6 2 "balanced" "shorter"
      true).variations = [candC6] := by
  unfold paraphrase_sentence
  rw [if_neg (by decide : ¬ (pyStrip origC6 = ""))]
  rw [show pyStrip origC6 = origC6 from by decide]
  rw [paraphraseCore_C6]
  dsimp only
  have h1 : (assembleResult oracleC6 wordNetC6 2 "balanced" "shorter" true
      origC6 tokensC6 taggedC6 [["red", "ore", "gap", "planet"]]).variations =
      ((scoredSorted wordNetC6 origC6 tokensC6
        (buildReplacementMap wordNetC6 oracleC6.setEnum "balanced" taggedC6).1
        taggedC6
        (candidateList oracleC6 wordNetC6 true 2 "balanced" "shorter" origC6
          tokensC6 taggedC6)
        [["red", "ore", "gap", "planet"]]).take 2).map (fun s => s.2) := rfl
  rw [h1, candidateList_C6]
  exact ranked_singleton wordNetC6 origC6 tokensC6 _ taggedC6 candC6
    [["red", "ore", "gap", "planet"]] 2 (by omega) rfl

theorem paraphrase_C6_proof :
    (paraphrase_sentence oracleC6 wordNetC6 origC6 2 "balanced" "shorter"
      true).turnitin_proof = some tpC6 := by
  unfold paraphrase_sentence
  rw [if_neg (by decide : ¬ (pyStrip origC6 = ""))]
  rw [show pyStrip origC6 = origC6 from by decide]
  rw [paraphraseCore_C6]
  dsimp only
  have h1 : (assembleResult oracleC6 wordNetC6 2 "balanced" "shorter" true
      origC6 tokensC6 taggedC6 [["red", "ore", "gap", "planet"]]).turnitin_proof =
      (runGeneration oracleC6 true 2 origC6 tokensC6 taggedC6
        (buildReplacementMap wordNetC6 oracleC6.setEnum "balanced" taggedC6).1
        (buildReplacementMap wordNetC6 oracleC6.setEnum "balanced"
          taggedC6).2).2 := rfl
  rw [h1, buildReplacementMap_C6]
  dsimp only
  rw [runGeneration_C6]

/-- C6 (amended): in aggressive mode, when the dedicated proof generator
returns a non-empty sentence, that sentence is the FIRST entry of the
variation list as it enters the length-preference filter — but contrary to
the unamended claim it is then re-subjected to the length filter, scoring,
sorting, and truncation like every other candidate, and can be displaced or
dropped entirely (see the counterexample). -/
theorem create_turnitin_proof_first_candidate (O : Oracle) (W : WordNet)
    (n : Nat) (style original : String) (tokens : List String)
    (tagged : List (String × String)) (tp : String)
    (htp : create_turnitin_proof_paraphrase O original tokens tagged
      (buildReplacementMap W O.setEnum style tagged).1
      (buildReplacementMap W O.setEnum style tagged).2 = some tp)
    (htpne : tp ≠ "") :
    (preVariations O W true n style original tokens tagged).head? = some tp := by
  have hinv : ((runGeneration O true n original tokens tagged
      (buildReplacementMap W O.setEnum style tagged).1
      (buildReplacementMap W O.setEnum style tagged).2).1).variations.head? =
      some tp := by
    refine runGeneration_invariant (fun st => st.variations.head? = some tp)
      O true n original tokens tagged _ _ ?_ ?_
    · unfold initialState
      rw [if_pos rfl, htp]
      dsimp only
      rw [if_pos ⟨htpne, Finset.not_mem_empty _⟩]
      rfl
    · intro st i h
      rcases generationStep_cases O true n original tokens _ _ st i with
        heq | ⟨v, heq, _, _, _⟩
      · rw [heq]; exact h
      · rw [heq]
        dsimp only
        cases hs : st.variations with
        | nil => rw [hs] at h; simp at h
        | cons x xs =>
          rw [hs] at h
          simpa using h
  have hne : ((runGeneration O true n original tokens tagged
      (buildReplacementMap W O.setEnum style tagged).1
      (buildReplacementMap W O.setEnum style tagged).2).1).variations ≠ [] := by
    intro hc
    rw [hc] at hinv
    simp at hinv
  unfold preVariations
  rw [postGenVariations_of_ne_nil O original tokens _ _ _ hne]
  exact hinv

/-- C6 witness: the amended theorem at the concrete displaced-proof
scenario. -/
theorem create_turnitin_proof_first_candidate_witness :
    (preVariations oracleC6 wordNetC6 true 2 "balanced" origC6 tokensC6
      taggedC6).head? = some tpC6 :=
  create_turnitin_proof_first_candidate oracleC6 wordNetC6 2 "balanced" origC6
    tokensC6 taggedC6 tpC6
    (by rw [buildReplacementMap_C6]; exact create_turnitin_C6) (by decide)

/-- C6 counterexample: a concrete aggressive run in which the proof
generator returns a sentence (it is reported as `turnitin_proof`), yet the
returned variations list does not contain it at all — the "shorter" length
filter removed it — refuting "is variant #1 and is not excluded by the
later length-preference filtering, scoring, sorting, or truncation". -/
theorem create_turnitin_proof_first_candidate_counterexample :
    (paraphrase_sentence oracleC6 wordNetC6 origC6 2 "balanced" "shorter"
      true).turnitin_proof = some tpC6 ∧
    tpC6 ∉ (paraphrase_sentence oracleC6 wordNetC6 origC6 2 "balanced"
      "shorter" true).variations := by
  refine ⟨paraphrase_C6_proof, ?_⟩
  rw [paraphrase_C6_variations]
  decide

theorem insertNew_mem (acc : List String) (s x : String)
    (h : x ∈ insertNew acc s) : x ∈ acc ∨ x = s := by
  unfold insertNew at h
  split at h
  · exact Or.inl h
  · rcases List.mem_append.mp h with h | h
    · exact Or.inl h
    · exact Or.inr (List.mem_singleton.mp h)

theorem dictInsert_mem (d : List (String × List String)) (k : String)
    (v : List String) (p : String × List String)
    (h : p ∈ dictInsert d k v) : p ∈ d ∨ p = (k, v) := by
  unfold dictInsert at h
  split at h
  · rcases List.mem_map.mp h with ⟨q, hq, hfq⟩
    by_cases hc : q.1 = k
    · rw [if_pos hc] at hfq
      exact Or.inr hfq.symm
    · rw [if_neg hc] at hfq
      rw [← hfq]
      exact Or.inl hq
  · rcases List.mem_append.mp h with h | h
    · exact Or.inl h
    · exact Or.inr (List.mem_singleton.mp h)

theorem styleSort_mem (style : String) (scored : List (String × ℚ))
    (x : String × ℚ) (h : x ∈ styleSort style scored) : x ∈ scored := by
  unfold styleSort at h
  split_ifs at h <;> first
    | exact List.mem_mergeSort.mp h
    | exact h

theorem filter_synonyms_by_style_mem (l : List String) (style : String)
    (s : String) (h : s ∈ filter_synonyms_by_style l style) : s ∈ l := by
  unfold filter_synonyms_by_style at h
  split at h
  · exact h
  · rcases List.mem_map.mp h with ⟨pr, hpr, hps⟩
    have h2 := styleSort_mem style _ pr hpr
    rcases List.mem_map.mp h2 with ⟨syn, hsyn, hsp⟩
    rw [← hps, ← hsp]
    exact hsyn

theorem collectSynLemmas_mem (word_lower : String) (m : Nat) :
    ∀ (names acc : List String),
      (∀ x ∈ acc, (pySplit x).length = 1 ∧ x ≠ word_lower) →
      ∀ x ∈ collectSynLemmas word_lower m names acc,
        (pySplit x).length = 1 ∧ x ≠ word_lower := by
  intro names
  induction names with
  | nil =>
    intro acc hacc x hx
    exact hacc x hx
  | cons name rest ih =>
    intro acc hacc x hx
    rw [collectSynLemmas] at hx
    have hstep : ∀ a : List String,
        (∀ y ∈ a, (pySplit y).length = 1 ∧ y ≠ word_lower) →
        x ∈ (if a.length ≥ m then a else collectSynLemmas word_lower m rest a) →
        (pySplit x).length = 1 ∧ x ≠ word_lower := by
      intro a ha hxa
      split at hxa
      · exact ha x hxa
      · exact ih a ha x hxa
    split at hx
    · rename_i hcond
      dsimp only at hx
      split at hx
      · rename_i hc2
        refine hstep _ ?_ hx
        intro y hy
        rcases insertNew_mem acc _ y hy with hy | hy
        · exact hacc y hy
        · subst hy
          exact ⟨hcond.2, hcond.1⟩
      · exact hstep acc hacc hx
    · exact ih acc hacc x hx

theorem collectSynsets_mem (W : WordNet) (word_lower : String) (m : Nat) :
    ∀ (senses : List Nat) (acc : List String),
      (∀ x ∈ acc, (pySplit x).length = 1 ∧ x ≠ word_lower) →
      ∀ x ∈ collectSynsets W word_lower m senses acc,
        (pySplit x).length = 1 ∧ x ≠ word_lower := by
  intro senses
  induction senses with
  | nil =>
    intro acc hacc x hx
    exact hacc x hx
  | cons s rest ih =>
    intro acc hacc x hx
    rw [collectSynsets] at hx
    split at hx
    · exact collectSynLemmas_mem word_lower m _ acc hacc x hx
    · exact ih _ (collectSynLemmas_mem word_lower m _ acc hacc) x hx

theorem collectHypLemmas_mem (word_lower : String) (m : Nat) :
    ∀ (names acc : List String),
      (∀ x ∈ acc, (pySplit x).length = 1 ∧ x ≠ word_lower) →
      ∀ x ∈ collectHypLemmas word_lower m names acc,
        (pySplit x).length = 1 ∧ x ≠ word_lower := by
  intro names
  induction names with
  | nil =>
    intro acc hacc x hx
    exact hacc x hx
  | cons name rest ih =>
    intro acc hacc x hx
    rw [collectHypLemmas] at hx
    split at hx
    · rename_i hcond
      have hins : ∀ y ∈ insertNew acc (pyLower (underscoreToSpace name)),
          (pySplit y).length = 1 ∧ y ≠ word_lower := by
        intro y hy
        rcases insertNew_mem acc _ y hy with hy | hy
        · exact hacc y hy
        · subst hy
          exact ⟨hcond.2.1, hcond.1⟩
      split at hx
      · exact hins x hx
      · exact ih _ hins x hx
    · exact ih acc hacc x hx

theorem collectHypernyms_mem (W : WordNet) (word_lower : String) (m : Nat) :
    ∀ (senses : List Nat) (acc : List String),
      (∀ x ∈ acc, (pySplit x).length = 1 ∧ x ≠ word_lower) →
      ∀ x ∈ collectHypernyms W word_lower m senses acc,
        (pySplit x).length = 1 ∧ x ≠ word_lower := by
  intro senses
  induction senses with
  | nil =>
    intro acc hacc x hx
    exact hacc x hx
  | cons s rest ih =>
    intro acc hacc x hx
    rw [collectHypernyms] at hx
    refine ih _ ?_ x hx
    have hfold : ∀ (hyps : List Nat) (a : List String),
        (∀ y ∈ a, (pySplit y).length = 1 ∧ y ≠ word_lower) →
        ∀ y ∈ hyps.foldl
          (fun a h => collectHypLemmas word_lower m (W.lemmasOf h) a) a,
          (pySplit y).length = 1 ∧ y ≠ word_lower := by
      intro hyps
      induction hyps with
      | nil =>
        intro a ha y hy
        exact ha y hy
      | cons h hs ihh =>
        intro a ha y hy
        rw [List.foldl_cons] at hy
        exact ihh _ (collectHypLemmas_mem word_lower m _ a ha) y hy
    exact hfold _ acc hacc

theorem collectedSynonyms_mem (W : WordNet) (word_lower : String) (m : Nat)
    (synsets : List Nat) :
    ∀ x ∈ collectedSynonyms W word_lower m synsets,
      (pySplit x).length = 1 ∧ x ≠ word_lower := by
  intro x hx
  unfold collectedSynonyms at hx
  split at hx
  · exact collectHypernyms_mem W word_lower m _ _
      (collectSynsets_mem W word_lower m _ [] (by simp)) x hx
  · exact collectSynsets_mem W word_lower m _ [] (by simp) x hx

theorem get_synonyms_for_word_mem (W : WordNet)
    (E : List String → List String) (word : String) (posTag : Option String)
    (m : Nat) (style : String) (hE : ∀ l x, x ∈ E l → x ∈ l) :
    ∀ s ∈ get_synonyms_for_word W E word posTag m style,
      (pySplit s).length = 1 ∧ s ≠ pyLower word := by
  intro s hs
  unfold get_synonyms_for_word at hs
  split at hs
  · simp at hs
  · have hs2 := (List.take_sublist _ _).mem hs
    have hs3 : s ∈ E (collectedSynonyms W (pyLower word) m
        (synsetsForLookup W (pyLower word) posTag)) := by
      split at hs2
      · exact filter_synonyms_by_style_mem _ _ s hs2
      · exact hs2
    exact collectedSynonyms_mem W (pyLower word) m _ s (hE _ s hs3)

theorem foldl_preserve_mem {σ β : Type} (P : σ → Prop) (f : σ → β → σ) :
    ∀ (l : List β) (s : σ), P s → (∀ s b, b ∈ l → P s → P (f s b)) →
      P (l.foldl f s) := by
  intro l
  induction l with
  | nil => intro s h _; exact h
  | cons b bs ih =>
    intro s h hstep
    exact ih (f s b) (hstep s b (List.mem_cons_self b bs) h)
      (fun s c hc => hstep s c (List.mem_cons_of_mem b hc))

theorem enum_snd_mem {α : Type} (l : List α) (q : Nat × α) (h : q ∈ l.enum) :
    q.2 ∈ l := by
  rw [List.enum_eq_zip_range] at h
  exact (List.of_mem_zip h).2

/-- C8 (amended): under any admissible enumeration of the Python synonym
set (every enumerated element belongs to the set), the ReplacementMap keys
are lowercase forms of tokens judged replaceable, and every value list is
non-empty, contains only single-word synonyms, and excludes the (lowercase)
source word; the relevance-ordering clause of the claim is refuted
separately, since the `list(set(...))` enumeration order is unspecified. -/
theorem buildReplacementMap_invariants (W : WordNet)
    (E : List String → List String) (style : String)
    (tagged : List (String × String)) (hE : ∀ l x, x ∈ E l → x ∈ l) :
    ∀ p ∈ (buildReplacementMap W E style tagged).1,
      (∃ wt ∈ tagged, should_replace_word wt.1 (some wt.2) = true ∧
        p.1 = pyLower wt.1) ∧
      p.2 ≠ [] ∧
      ∀ s ∈ p.2, (pySplit s).length = 1 ∧ s ≠ p.1 := by
  unfold buildReplacementMap
  refine foldl_preserve_mem
    (fun (acc : List (String × List String) × List (Nat × String × String)) =>
      ∀ p ∈ acc.1,
      (∃ wt ∈ tagged, should_replace_word wt.1 (some wt.2) = true ∧
        p.1 = pyLower wt.1) ∧
      p.2 ≠ [] ∧
      ∀ s ∈ p.2, (pySplit s).length = 1 ∧ s ≠ p.1)
    _ _ _ (by simp) ?_
  intro acc b hb hP
  split
  · rename_i hrep
    split
    · rename_i hsyn
      intro p hp
      rcases dictInsert_mem acc.1 _ _ p hp with hp | hp
      · exact hP p hp
      · subst hp
        refine ⟨⟨b.2, enum_snd_mem tagged b hb, hrep, rfl⟩, ?_, ?_⟩
        · intro hc
          rw [List.isEmpty_iff] at hsyn
          exact hsyn hc
        · intro s hs
          exact get_synonyms_for_word_mem W E b.2.1 (some b.2.2) 15 style hE s hs
    · exact hP
  · exact hP

/-- C8 witness: the invariants at a concrete lexicon and tagged sentence,
for the "orange" entry of the resulting map. -/
theorem buildReplacementMap_invariants_witness :
    (∃ wt ∈ taggedC6, should_replace_word wt.1 (some wt.2) = true ∧
      ("orange" : String) = pyLower wt.1) ∧
    (["umber", "crimson", "scarlet", "maroon", "vermillion", "red"] :
      List String) ≠ [] ∧
    ∀ s ∈ (["umber", "crimson", "scarlet", "maroon", "vermillion", "red"] :
      List String), (pySplit s).length = 1 ∧ s ≠ "orange" :=
  buildReplacementMap_invariants wordNetC6 id "balanced" taggedC6
    (fun _ _ h => h)
    ("orange", ["umber", "crimson", "scarlet", "maroon", "vermillion", "red"])
    (by decide)

/-- C8 counterexample (ordering clause): the synonym list order depends on
the unspecified `list(set(...))` enumeration — two admissible enumerations
(identity and reversal, both returning exactly the set's elements) produce
the same map contents with opposite value orders, so insertion order cannot
equal a documented relevance rank. -/
theorem buildReplacementMap_order_counterexample :
    (∀ l x, x ∈ (id : List String → List String) l → x ∈ l) ∧
    (∀ l x, x ∈ (List.reverse : List String → List String) l → x ∈ l) ∧
    dictFind? (buildReplacementMap wordNetC6 id "balanced" taggedC6).1
      "orange" =
      some ["umber", "crimson", "scarlet", "maroon", "vermillion", "red"] ∧
    dictFind? (buildReplacementMap wordNetC6 List.reverse "balanced"
      taggedC6).1 "orange" =
      some ["red", "vermillion", "maroon", "scarlet", "crimson", "umber"] := by
  refine ⟨fun _ _ h => h, fun l x h => List.mem_reverse.mp h, by decide, by decide⟩
